import Mathlib

/-!
# Substra chaincode: the smart contracts of `chaincode/smartcontracts.go`

A shallow embedding of the entry points of `smartcontracts.go` over an explicit
ledger state, and theorems about what these entry points return and write.

The ledger collaborator (`shim.ChaincodeStubInterface`) is a value of type `Stub`:
the key-value world state, the composite-key index entries, the identity of the
transaction creator and the raw keys the ledger refuses to write.  Every entry
point is a function `Stub → List String → Stub × Outcome`: the ledger after the
call (writes issued before an error stay in it, the transaction boundary being
the ledger's) and what the Go function returned.
-/

namespace Chaincode

/-! ## Standard-library functions -/

/-- Round constants of SHA-256 (FIPS 180-4, section 4.2.2). -/
def sha256K : List Nat :=
  [0x428a2f98, 0x71374491, 0xb5c0fbcf, 0xe9b5dba5, 0x3956c25b, 0x59f111f1, 0x923f82a4, 0xab1c5ed5,
   0xd807aa98, 0x12835b01, 0x243185be, 0x550c7dc3, 0x72be5d74, 0x80deb1fe, 0x9bdc06a7, 0xc19bf174,
   0xe49b69c1, 0xefbe4786, 0x0fc19dc6, 0x240ca1cc, 0x2de92c6f, 0x4a7484aa, 0x5cb0a9dc, 0x76f988da,
   0x983e5152, 0xa831c66d, 0xb00327c8, 0xbf597fc7, 0xc6e00bf3, 0xd5a79147, 0x06ca6351, 0x14292967,
   0x27b70a85, 0x2e1b2138, 0x4d2c6dfc, 0x53380d13, 0x650a7354, 0x766a0abb, 0x81c2c92e, 0x92722c85,
   0xa2bfe8a1, 0xa81a664b, 0xc24b8b70, 0xc76c51a3, 0xd192e819, 0xd6990624, 0xf40e3585, 0x106aa070,
   0x19a4c116, 0x1e376c08, 0x2748774c, 0x34b0bcb5, 0x391c0cb3, 0x4ed8aa4a, 0x5b9cca4f, 0x682e6ff3,
   0x748f82ee, 0x78a5636f, 0x84c87814, 0x8cc70208, 0x90befffa, 0xa4506ceb, 0xbef9a3f7, 0xc67178f2]

/-- Initial hash value of SHA-256 (FIPS 180-4, section 5.3.3). -/
def sha256Init : List Nat :=
  [0x6a09e667, 0xbb67ae85, 0x3c6ef372, 0xa54ff53a, 0x510e527f, 0x9b05688c, 0x1f83d9ab, 0x5be0cd19]

/-- Rotation of a 32-bit word to the right by `n` bits. -/
def rotr32 (x n : Nat) : Nat := ((x >>> n) ||| (x <<< (32 - n))) % 2 ^ 32

/-- Addition of 32-bit words, modulo 2 ^ 32. -/
def add32 (x y : Nat) : Nat := (x + y) % 2 ^ 32

/-- UTF-8 bytes of a string, as naturals below 256 (a Go string is its byte sequence). -/
def stringBytes (s : String) : List Nat :=
  (s.toList.flatMap String.utf8EncodeChar).map (fun b => b.toNat)

/-- The `width` bytes of `x`, most significant first. -/
def bigEndian (width : Nat) (x : Nat) : List Nat :=
  (List.range width).map (fun i => (x >>> (8 * (width - 1 - i))) % 256)

/-- Message padding: a one bit, zeros up to 56 mod 64, then the bit length on 8 bytes. -/
def sha256Pad (msg : List Nat) : List Nat :=
  let zeros := (64 - (msg.length + 9) % 64) % 64
  msg ++ [0x80] ++ List.replicate zeros 0 ++ bigEndian 8 (8 * msg.length)

/-- The first `n` big-endian 32-bit words of a byte list. -/
def wordsOf : Nat → List Nat → List Nat
  | 0, _ => []
  | n + 1, b0 :: b1 :: b2 :: b3 :: rest =>
      (b0 * 2 ^ 24 + b1 * 2 ^ 16 + b2 * 2 ^ 8 + b3) :: wordsOf n rest
  | _ + 1, _ => []

/-- Message schedule, newest word first: extends the 16 block words by `n` further words. -/
def sha256Schedule : Nat → List Nat → List Nat
  | 0, w => w
  | n + 1, w =>
      let w2 := w.getD 1 0
      let w7 := w.getD 6 0
      let w15 := w.getD 14 0
      let w16 := w.getD 15 0
      let s0 := rotr32 w15 7 ^^^ rotr32 w15 18 ^^^ (w15 >>> 3)
      let s1 := rotr32 w2 17 ^^^ rotr32 w2 19 ^^^ (w2 >>> 10)
      sha256Schedule n (add32 (add32 (add32 w16 s0) w7) s1 :: w)

/-- One round of the compression function on the eight working variables, for a
pair of round constant and schedule word. -/
def sha256Round (st : List Nat) (kw : Nat × Nat) : List Nat :=
  match st with
  | [a, b, c, d, e, f, g, h] =>
      let s1 := rotr32 e 6 ^^^ rotr32 e 11 ^^^ rotr32 e 25
      let ch := (e &&& f) ^^^ ((e ^^^ 0xffffffff) &&& g)
      let t1 := add32 (add32 (add32 (add32 h s1) ch) kw.1) kw.2
      let s0 := rotr32 a 2 ^^^ rotr32 a 13 ^^^ rotr32 a 22
      let maj := (a &&& b) ^^^ (a &&& c) ^^^ (b &&& c)
      let t2 := add32 s0 maj
      [add32 t1 t2, a, b, c, add32 d t1, e, f, g]
  | _ => st

/-- The compression of one 64-byte block into the hash value `h`. -/
def sha256Block (h : List Nat) (block : List Nat) : List Nat :=
  let w := (sha256Schedule 48 (wordsOf 16 block).reverse).reverse
  List.zipWith add32 h ((sha256K.zip w).foldl sha256Round h)

/-- The compression of `n` successive blocks. -/
def sha256Blocks : Nat → List Nat → List Nat → List Nat
  | 0, h, _ => h
  | n + 1, h, bytes => sha256Blocks n (sha256Block h (bytes.take 64)) (bytes.drop 64)

/-- The function `sha256.Sum256` of the Go standard library: the 32-byte digest. -/
def sha256Sum256 (msg : List Nat) : List Nat :=
  let padded := sha256Pad msg
  (sha256Blocks (padded.length / 64) sha256Init padded).flatMap (bigEndian 4)

/-- The lower-case hexadecimal digit of a value below 16. -/
def hexDigit (n : Nat) : Char := "0123456789abcdef".toList.getD n '0'

/-- The function `hex.EncodeToString` of the Go standard library. -/
def hexEncodeToString (bytes : List Nat) : String :=
  String.mk (bytes.flatMap (fun b => [hexDigit (b / 16), hexDigit (b % 16)]))

/-- The call `strings.Replace(s, " ", "", -1)`: every space removed. -/
def removeSpaces (s : String) : String :=
  String.mk (s.toList.filter (fun c => c != ' '))

/-- Splitting a character list at every occurrence of `sep`; never the empty list. -/
def splitChars (sep : Char) : List Char → List (List Char)
  | [] => [[]]
  | c :: cs =>
      if c = sep then [] :: splitChars sep cs
      else
        match splitChars sep cs with
        | [] => [[c]]
        | w :: ws => (c :: w) :: ws

/-- The call `strings.Split(s, sep)` for a one-character separator. -/
def stringsSplit (s : String) (sep : Char) : List String :=
  (splitChars sep s.toList).map String.mk

/-- The call `strings.Join(l, sep)`. -/
def stringsJoin (l : List String) (sep : String) : String :=
  sep.intercalate l

/-- The function `strconv.FormatBool`. -/
def formatBool (b : Bool) : String := if b then "true" else "false"

/-- The function `strconv.ParseBool`. -/
def parseBool (s : String) : Option Bool :=
  if s ∈ ["1", "t", "T", "TRUE", "true", "True"] then some true
  else if s ∈ ["0", "f", "F", "FALSE", "false", "False"] then some false
  else none

/-- A finite float is carried as the text it was parsed from; the rounding of
`strconv.ParseFloat(s, 32)` to a `float32` is not represented.  The floats of a
stored record are finite: JSON has no other. -/
abbrev Score := String

/-- What `strconv.ParseFloat(s, 32)` returns with a nil error: a finite number,
carried as the text it was parsed from, or one of the values `Inf`, `-Inf`, `NaN`. -/
inductive ParsedFloat
  | finite (value : Score)
  | notFinite
deriving DecidableEq, Repr

/-- The least magnitude that `strconv.ParseFloat(s, 32)` rounds to infinity, with a
range error: half-way between the largest `float32` and 2 ^ 128. -/
def float32Overflow : Nat := 2 ^ 128 - 2 ^ 103

/-- The function `special` of `strconv`: `Inf` and `Infinity` with an optional sign
and `NaN` without one, in any case. -/
def isSpecialFloat (cs : List Char) : Bool :=
  let body := match cs with
    | '+' :: rest => rest
    | '-' :: rest => rest
    | _ => cs
  let lower := body.map Char.toLower
  lower == "inf".toList || lower == "infinity".toList || cs.map Char.toLower == "nan".toList

/-- The value of a digit of the mantissa: decimal, or hexadecimal after `0x`. -/
def floatDigit (hex : Bool) (c : Char) : Option Nat :=
  if c.isDigit then some (c.toNat - '0'.toNat)
  else if hex && decide ('a' ≤ c.toLower) && decide (c.toLower ≤ 'f') then
    some (c.toLower.toNat - 'a'.toNat + 10)
  else none

/-- The digit loop of `readFloat`: underscores are skipped, one point is taken, and
the loop stops at the first other character.  It returns whether a digit was
seen, the mantissa as an integer, the number of its digits after the point, and
the characters left. -/
def scanMantissa (hex : Bool) :
    List Char → Bool → Bool → Nat → Nat → Bool × Nat × Nat × List Char
  | [], _, sawdigits, mantissa, fraction => (sawdigits, mantissa, fraction, [])
  | c :: cs, sawdot, sawdigits, mantissa, fraction =>
      if c = '_' then scanMantissa hex cs sawdot sawdigits mantissa fraction
      else if c = '.' then
        if sawdot then (sawdigits, mantissa, fraction, c :: cs)
        else scanMantissa hex cs true sawdigits mantissa fraction
      else
        match floatDigit hex c with
        | some d =>
            scanMantissa hex cs sawdot true (mantissa * (if hex then 16 else 10) + d)
              (if sawdot then fraction + 1 else fraction)
        | none => (sawdigits, mantissa, fraction, c :: cs)

/-- The exponent loop of `readFloat`: digits and underscores; the value stops
growing once it has reached 10000. -/
def scanExponent : List Char → Nat → Nat × List Char
  | [], e => (e, [])
  | c :: cs, e =>
      if c = '_' then scanExponent cs e
      else if c.isDigit then
        scanExponent cs (if e < 10000 then e * 10 + (c.toNat - '0'.toNat) else e)
      else (e, c :: cs)

/-- The loop of `underscoreOK` of `strconv`; `saw` is the kind of the last
character: `'0'` a digit or a base prefix, `'_'` an underscore, `'!'` another
character, `'^'` the beginning. -/
def underscoreLoop (hex : Bool) : List Char → Char → Bool
  | [], saw => saw != '_'
  | c :: cs, saw =>
      if c.isDigit || (hex && decide ('a' ≤ c.toLower) && decide (c.toLower ≤ 'f')) then
        underscoreLoop hex cs '0'
      else if c = '_' then
        if saw != '0' then false else underscoreLoop hex cs '_'
      else if saw = '_' then false
      else underscoreLoop hex cs '!'

/-- The function `underscoreOK` of `strconv`: an underscore stands only between
digits, or between a base prefix and a digit. -/
def underscoreOK (cs : List Char) : Bool :=
  let body := match cs with
    | '+' :: rest => rest
    | '-' :: rest => rest
    | _ => cs
  match body with
  | '0' :: b :: rest =>
      if b.toLower = 'b' || b.toLower = 'o' || b.toLower = 'x' then
        underscoreLoop (b.toLower = 'x') rest '0'
      else underscoreLoop false body '^'
  | _ => underscoreLoop false body '^'

/-- The optional exponent of `readFloat`, `e` for a decimal and `p` for a
hexadecimal mantissa, which must have one: the signed exponent and the characters
left, or `none` for a syntax error. -/
def readExponent (hex : Bool) (cs : List Char) : Option (Int × List Char) :=
  match cs with
  | c :: rest =>
      if c.toLower = (if hex then 'p' else 'e') then
        let (negative, digits) := match rest with
          | '+' :: r => (false, r)
          | '-' :: r => (true, r)
          | r => (false, r)
        match digits with
        | d :: _ =>
            if d.isDigit then
              let (e, left) := scanExponent digits 0
              some (if negative then -(e : Int) else (e : Int), left)
            else none
        | [] => none
      else if hex then none
      else some (0, cs)
  | [] => if hex then none else some (0, [])

/-- Whether the number `mantissa * base ^ exponent` is rounded to infinity. -/
def overflowsFloat32 (base mantissa : Nat) (exponent : Int) : Bool :=
  if mantissa = 0 then false
  else if 0 ≤ exponent then decide (float32Overflow ≤ mantissa * base ^ exponent.toNat)
  else decide (float32Overflow * base ^ (-exponent).toNat ≤ mantissa)

/-- The function `strconv.ParseFloat(s, 32)`: `none` for a syntax error or a range
error.  A finite result is carried as the text `s`; its rounding to a `float32`
is not represented. -/
def parseFloat (s : String) : Option ParsedFloat :=
  let cs := s.toList
  if isSpecialFloat cs then some .notFinite
  else
    let body := match cs with
      | '+' :: rest => rest
      | '-' :: rest => rest
      | _ => cs
    let (hex, digits) := match body with
      | '0' :: x :: c :: rest => if x.toLower = 'x' then (true, c :: rest) else (false, body)
      | _ => (false, body)
    match scanMantissa hex digits false false 0 0 with
    | (false, _, _, _) => none
    | (true, mantissa, fraction, afterMantissa) =>
        match readExponent hex afterMantissa with
        | none => none
        | some (e, left) =>
            if left ≠ [] then none
            else if cs.contains '_' && !underscoreOK cs then none
            else if hex then
              if overflowsFloat32 2 mantissa (e - 4 * (fraction : Int)) then none
              else some (.finite s)
            else
              if overflowsFloat32 10 mantissa (e - (fraction : Int)) then none
              else some (.finite s)

/-! ## Data model -/

/-- Modelled from the spec: the type `HashDress` is declared outside
`smartcontracts.go`; a hash and the storage address of the artifact it names. -/
structure HashDress where
  hash : String := ""
  storageAddress : String := ""
deriving DecidableEq, Repr

/-- Modelled from the spec: the type `Challenge` is declared outside
`smartcontracts.go`; owner, metadata (name, description, metrics) and the
reference test data (section 3). -/
structure Challenge where
  owner : String := ""
  name : String := ""
  description : HashDress := {}
  metrics : HashDress := {}
  testDataKeys : List String := []
  permissions : String := ""
deriving DecidableEq, Repr

/-- Modelled from the spec: the type `Dataset` is declared outside
`smartcontracts.go`; owner, name, type tag, permissions, opener artifact,
optional description and the associated challenge keys (section 3).  No data
key list and no counter is stored. -/
structure Dataset where
  owner : String := ""
  name : String := ""
  type : String := ""
  permissions : String := ""
  openerStorageAddress : String := ""
  description : Option HashDress := none
  challengeKeys : List String := []
deriving DecidableEq, Repr

/-- The type `Data`, with the two fields `registerData` fills. -/
structure Data where
  datasetKey : String := ""
  testOnly : Bool := false
deriving DecidableEq, Repr

/-- Modelled from the spec: the type `Algo` is declared outside
`smartcontracts.go`; owner, name, storage address and the challenge it targets
(section 3).  The hash of the algo is its key. -/
structure Algo where
  owner : String := ""
  name : String := ""
  storageAddress : String := ""
  challengeKey : String := ""
deriving DecidableEq, Repr

/-- Modelled from the spec: the type `TtData` is declared outside
`smartcontracts.go`; the fields are those `createTraintuple` and the transitions
read and write. -/
structure TtData where
  worker : String := ""
  keys : List String := []
  openerHash : String := ""
  perf : List (String × Score) := []
deriving DecidableEq, Repr

/-- Modelled from the spec: the type `Traintuple` is declared outside
`smartcontracts.go`; the fields are those of section 3.  The descriptors that
`createTraintuple` always fills before it writes (`Algo`, `StartModel`,
`TrainData`, `TestData`) are plain fields; `EndModel`, set only by
`logSuccessTrain`, is optional. -/
structure Traintuple where
  status : String := ""
  permissions : String := ""
  creator : String := ""
  algo : HashDress := {}
  startModel : HashDress := {}
  endModel : Option HashDress := none
  log : String := ""
  trainData : TtData := {}
  testData : TtData := {}
  perf : Score := "0"
  rank : Nat := 0
deriving DecidableEq, Repr

/-- A primary record of the ledger: the value `json.Marshal` produces for one of
the five entity types, kept as the typed value. -/
inductive Record
  | challenge (c : Challenge)
  | dataset (d : Dataset)
  | data (d : Data)
  | algo (a : Algo)
  | traintuple (t : Traintuple)
deriving DecidableEq, Repr

/-- The error kinds of section 7 of the spec, and `parseFailure` for the errors
of `strconv`. -/
inductive Error
  | argumentCount
  | invalidIdentifier
  | alreadyExists
  | notFound
  | inconsistentDataset
  | unknownParentModel
  | unauthorized
  | invalidTransition
  | logTooLarge
  | indexConsistency
  | ledgerWriteFailure
  | parseFailure
deriving DecidableEq, Repr

/-- One value of a JSON object returned as payload. -/
inductive Field
  | element (key : String) (r : Record)
  | elements (l : List (String × Record))
  | keys (l : List String)
deriving DecidableEq, Repr

/-- The bytes an entry point returns as payload. -/
inductive Payload
  | bytes (s : String)
  | record (r : Record)
  | elements (l : List (String × Record))
  | object (fields : List (String × Field))
deriving DecidableEq, Repr

/-- What a call of an entry point does: it returns the Go pair
`([]byte, error)`, each possibly nil, or it aborts on a run-time panic. -/
inductive Outcome
  | returned (payload : Option Payload) (err : Option Error)
  | aborted
deriving DecidableEq, Repr

/-! ## The ledger collaborator -/

/-- The ledger as the chaincode sees it through `shim.ChaincodeStubInterface`:
the world state (the first entry of a key is the current one), the composite-key
index entries, the creator of the transaction, and the raw keys on which the
ledger's `PutState` fails. -/
structure Stub where
  state : List (String × Record) := []
  index : List (String × List String) := []
  creator : String := ""
  rejected : List String := []
deriving DecidableEq, Repr

/-- The raw key of an index entry, as `stub.CreateCompositeKey` lays it out. -/
def compositeKey (indexName : String) (attributes : List String) : String :=
  let nul := String.singleton (Char.ofNat 0)
  nul ++ indexName ++ nul ++ String.join (attributes.map (fun a => a ++ nul))

/-- The call `stub.GetState(key)`. -/
def Stub.getState (stub : Stub) (key : String) : Option Record :=
  stub.state.lookup key

/-- The call `stub.PutState(key, value)`: the ledger after the call and the error. -/
def Stub.putState (stub : Stub) (key : String) (value : Record) : Stub × Option Error :=
  if key ∈ stub.rejected then (stub, some .ledgerWriteFailure)
  else ({ stub with state := (key, value) :: stub.state }, none)

/-- The call `stub.PutState(key, nil)`: the key holds no value afterwards, and
`GetState` returns nil for it. -/
def Stub.putNil (stub : Stub) (key : String) : Stub × Option Error :=
  if key ∈ stub.rejected then (stub, some .ledgerWriteFailure)
  else ({ stub with state := stub.state.filter (fun e => e.1 != key) }, none)

/-- Modelled from the spec: `getTxCreator` is defined outside `smartcontracts.go`;
the creator identity arrives as an opaque authenticated string (section 1). -/
def getTxCreator (stub : Stub) : Except Error String := .ok stub.creator

/-- Modelled from the spec: `createCompositeKey` is defined outside
`smartcontracts.go`; it adds one index entry (`addIndexEntry`, section 4.3), and
fails when the ledger refuses the write. -/
def createCompositeKey (stub : Stub) (indexName : String) (attributes : List String) :
    Stub × Option Error :=
  if compositeKey indexName attributes ∈ stub.rejected then (stub, some .ledgerWriteFailure)
  else ({ stub with index := stub.index.insert (indexName, attributes) }, none)

/-- Modelled from the spec: `updateCompositeKey` is defined outside
`smartcontracts.go`; `moveIndexEntry` of section 4.3 fails with
`IndexConsistencyError` when the old entry does not exist, and otherwise removes
the old entry and adds the new one. -/
def updateCompositeKey (stub : Stub) (indexName : String)
    (oldAttributes newAttributes : List String) : Stub × Option Error :=
  if (indexName, oldAttributes) ∉ stub.index then (stub, some .indexConsistency)
  else
    createCompositeKey { stub with index := stub.index.erase (indexName, oldAttributes) }
      indexName newAttributes

/-- Modelled from the spec: `getKeysFromComposite` is defined outside
`smartcontracts.go`; `queryIndex(indexName, attributePrefix)` of section 6, the
target key being the last attribute of an entry. -/
def getKeysFromComposite (stub : Stub) (indexName : String) (attributes : List String) :
    List String :=
  (stub.index.filter (fun e => e.1 == indexName && attributes.isPrefixOf e.2)).filterMap
    (fun e => e.2.getLast?)

/-! ## Helpers defined outside `smartcontracts.go` -/

/-- Modelled from the spec: `getElementStruct` is defined outside
`smartcontracts.go`; a read fails with `NotFound` when the key is absent
(section 4.6).  This is the read into a `map[string]interface{}`, which takes a
record of any type. -/
def getElementStruct (stub : Stub) (key : String) : Except Error Record :=
  match stub.getState key with
  | some r => .ok r
  | none => .error .notFound

/-- Modelled from the spec: `getElementStruct` into a `Challenge`; a key that holds
no challenge record counts as absent. -/
def getChallenge (stub : Stub) (key : String) : Except Error Challenge :=
  match stub.getState key with
  | some (.challenge c) => .ok c
  | _ => .error .notFound

/-- Modelled from the spec: `getElementStruct` into a `Dataset`. -/
def getDataset (stub : Stub) (key : String) : Except Error Dataset :=
  match stub.getState key with
  | some (.dataset d) => .ok d
  | _ => .error .notFound

/-- Modelled from the spec: `getElementStruct` into a `Data`. -/
def getData (stub : Stub) (key : String) : Except Error Data :=
  match stub.getState key with
  | some (.data d) => .ok d
  | _ => .error .notFound

/-- Modelled from the spec: `getElementStruct` into an `Algo`. -/
def getAlgo (stub : Stub) (key : String) : Except Error Algo :=
  match stub.getState key with
  | some (.algo a) => .ok a
  | _ => .error .notFound

/-- Modelled from the spec: `getElementStruct` into a `Traintuple`; the read fails
with `NotFound` when the key is absent (section 4.6), and decodes whatever record
the key holds.  A traintuple record gives `some` traintuple.  A record of another
entity type has none of the fields the transitions read, and gives `none`: the
struct it leaves has the empty `Status` and the nil pointers `TrainData` and
`TestData`. -/
def getTraintuple (stub : Stub) (key : String) : Except Error (Option Traintuple) :=
  match stub.getState key with
  | none => .error .notFound
  | some (.traintuple t) => .ok (some t)
  | some _ => .ok none

/-- Modelled from the spec: the validation of a hash is defined outside
`smartcontracts.go`; a well-formed 256-bit hex digest is 64 hexadecimal
characters (sections 3 and 4.1). -/
def isHash (s : String) : Bool :=
  decide (s.length = 64) && s.toList.all (fun c => c.isDigit || ('a' ≤ c && c ≤ 'f') || ('A' ≤ c && c ≤ 'F'))

/-- The function `stringInSlice`, defined outside `smartcontracts.go`: membership
of a string in a slice, as its name and its two uses say. -/
def stringInSlice (a : String) (list : List String) : Bool := list.contains a

/-- Modelled from the spec: the maximum size of a log is implementation-defined
(section 4.4); the constant is declared outside `smartcontracts.go`. -/
def maxLogSize : Nat := 200

/-- Modelled from the spec: `checkLog` is defined outside `smartcontracts.go`; a
log over the maximum size fails with `LogTooLarge` (section 4.4). -/
def checkLog (log : String) : Option Error :=
  if log.utf8ByteSize > maxLogSize then some .logTooLarge else none

/-- The edges of the traintuple state machine (section 4.4): the table, and
`failed` reachable from `todo`. -/
def transitions : List (String × String) :=
  [("todo", "training"), ("training", "trained"), ("trained", "testing"), ("testing", "done"),
   ("todo", "failed"), ("training", "failed"), ("trained", "failed"), ("testing", "failed")]

/-- Modelled from the spec: `checkUpdateTraintuple` is defined outside
`smartcontracts.go`; it fails with `Unauthorized` when the caller is not the
worker, and with `InvalidTransition` when the state machine has no edge from the
current status to the requested one (section 4.4). -/
def checkUpdateTraintuple (stub : Stub) (worker oldStatus newStatus : String) : Option Error :=
  match getTxCreator stub with
  | .error e => some e
  | .ok creator =>
      if creator ≠ worker then some .unauthorized
      else if (oldStatus, newStatus) ∉ transitions then some .invalidTransition
      else none

/-- Modelled from the spec: `updateStatusTraintuple` is defined outside
`smartcontracts.go`; it reads the traintuple, validates the transition for the
worker of the requested status (training worker for `training`, testing worker
for `testing`, section 4.4), writes the record with the new status and returns
it. -/
def updateStatusTraintuple (stub : Stub) (traintupleKey status : String) :
    Stub × Except Error Traintuple :=
  match getTraintuple stub traintupleKey with
  | .error e => (stub, .error e)
  | .ok none => (stub, .error .invalidTransition)
  | .ok (some traintuple) =>
      let worker? :=
        if status = "training" then some traintuple.trainData.worker
        else if status = "testing" then some traintuple.testData.worker
        else none
      match worker? with
      | none => (stub, .error .invalidTransition)
      | some worker =>
          match checkUpdateTraintuple stub worker traintuple.status status with
          | some e => (stub, .error e)
          | none =>
              let traintuple := { traintuple with status := status }
              match stub.putState traintupleKey (.traintuple traintuple) with
              | (stub, some e) => (stub, .error e)
              | (stub, none) => (stub, .ok traintuple)

/-- Modelled from the spec: `checkSameDataset` is defined outside
`smartcontracts.go`; every data key must be a stored data sample and all of them
must belong to one dataset, whose key is returned; samples that span more than
one dataset fail with `InconsistentDataset` (section 4.4). -/
def checkSameDataset (stub : Stub) : List String → Except Error String
  | [] => .error .notFound
  | [dataKey] =>
      match getData stub dataKey with
      | .error e => .error e
      | .ok data => .ok data.datasetKey
  | dataKey :: rest =>
      match getData stub dataKey with
      | .error e => .error e
      | .ok data =>
          match checkSameDataset stub rest with
          | .error e => .error e
          | .ok datasetKey =>
              if data.datasetKey = datasetKey then .ok datasetKey else .error .inconsistentDataset

/-- Modelled from the spec: `strToPerf` is defined outside `smartcontracts.go`; the
per-sample performances `key:perf, key:perf, ...`, one for each data key of the
descriptor, in the order of the keys, checked for validity: each performance is
a finite number. -/
def strToPerf (perf : String) (dataKeys : List String) : Except Error (List (String × Score)) :=
  let entries := (stringsSplit (removeSpaces perf) ',').map (fun e => stringsSplit e ':')
  let parsed := entries.map (fun e =>
    match e with
    | [key, value] =>
        match parseFloat value with
        | some (.finite v) => some (key, v)
        | _ => none
    | _ => none)
  if parsed.all Option.isSome ∧ parsed.filterMap (fun p => p.map Prod.fst) = dataKeys then
    .ok (parsed.filterMap id)
  else .error .parseFailure

/-- Modelled from the spec: `fillTraintupleFromAlgo` is defined outside
`smartcontracts.go`; for a first-generation traintuple the start model is the algo
itself and the test descriptor is derived from the challenge: its reference test
data, and as testing worker the owner of the dataset these belong to
(sections 3 and 4.4). -/
def fillTraintupleFromAlgo (stub : Stub) (traintuple : Traintuple) (algoKey challengeKey : String) :
    Except Error Traintuple :=
  match getAlgo stub algoKey with
  | .error e => .error e
  | .ok algo =>
      match getChallenge stub challengeKey with
      | .error e => .error e
      | .ok challenge =>
          match checkSameDataset stub challenge.testDataKeys with
          | .error e => .error e
          | .ok testDatasetKey =>
              match getDataset stub testDatasetKey with
              | .error e => .error e
              | .ok testDataset =>
                  .ok { traintuple with
                    startModel := { hash := algoKey, storageAddress := algo.storageAddress }
                    testData :=
                      { worker := testDataset.owner, keys := challenge.testDataKeys,
                        openerHash := testDatasetKey }
                    rank := 0 }

/-- Modelled from the spec: `fillTraintupleFromModel` is defined outside
`smartcontracts.go`; a chained traintuple takes as start model the end model of
the parent traintuple found through the end-model index and inherits the parent's
test descriptor unchanged; an unrecognized start-model key fails with
`UnknownParentModel` (sections 4.4 and 8). -/
def fillTraintupleFromModel (stub : Stub) (traintuple : Traintuple) (startModelKey : String) :
    Except Error Traintuple :=
  match getKeysFromComposite stub "traintuple~endModel~key" ["traintuple", startModelKey] with
  | [] => .error .unknownParentModel
  | parentKey :: _ =>
      match getTraintuple stub parentKey with
      | .error _ => .error .unknownParentModel
      | .ok none => .error .unknownParentModel
      | .ok (some parent) =>
          match parent.endModel with
          | none => .error .unknownParentModel
          | some endModel =>
              .ok { traintuple with
                startModel := { hash := startModelKey, storageAddress := endModel.storageAddress }
                testData := parent.testData
                rank := parent.rank + 1 }

/-- Modelled from the spec: `getDatasetData` is defined outside `smartcontracts.go`;
the data keys of a dataset resolved from the data index: with `trainOnly` those
registered with test-only = false, through the index partitioned by the flag,
otherwise all of them (sections 4.3 and 4.6). -/
def getDatasetData (stub : Stub) (datasetKey : String) (trainOnly : Bool) : Except Error (List String) :=
  if trainOnly then
    .ok (getKeysFromComposite stub "data~dataset~testOnly~key" ["data", datasetKey, "false"])
  else
    .ok (getKeysFromComposite stub "data~dataset~key" ["data", datasetKey])

/-- Modelled from the spec: `getModel` is defined outside `smartcontracts.go`; it
resolves a traintuple by its end-model index and returns the stored record;
`NotFound` when the index has no entry (section 4.6). -/
def getModel (stub : Stub) (modelHash : String) : Except Error Record :=
  match getKeysFromComposite stub "traintuple~endModel~key" ["traintuple", modelHash] with
  | [] => .error .notFound
  | traintupleKey :: _ => getElementStruct stub traintupleKey

/-- Modelled from the spec: `addChallengeDataset` is defined outside
`smartcontracts.go`; a challenge attaches itself to a registered dataset by
updating the dataset's challenge-association index, not the dataset record
(section 4.2). -/
def addChallengeDataset (stub : Stub) (datasetKey challengeKey : String) : Stub × Option Error :=
  createCompositeKey stub "dataset~challenge~key" ["dataset", challengeKey, datasetKey]

/-! ## Input structures and their validation -/

/-- Modelled from the spec: the type `inputChallenge` is declared outside
`smartcontracts.go`; the positional fields of a challenge registration. -/
structure InputChallenge where
  name : String
  descriptionHash : String
  descriptionStorageAddress : String
  metricsHash : String
  metricsStorageAddress : String
  testDataKeys : String
  permissions : String
deriving DecidableEq, Repr

/-- Modelled from the spec: the type `inputDataset` is declared outside
`smartcontracts.go`; the positional fields of a dataset registration. -/
structure InputDataset where
  name : String
  openerHash : String
  openerStorageAddress : String
  type : String
  descriptionHash : String
  descriptionStorageAddress : String
  challengeKeys : String
  permissions : String
deriving DecidableEq, Repr

/-- Modelled from the spec: the type `inputData` is declared outside
`smartcontracts.go`; the comma-joined hashes, the dataset key and the test-only
flag. -/
structure InputData where
  hashes : String
  datasetKey : String
  testOnly : String
deriving DecidableEq, Repr

/-- Modelled from the spec: the type `inputAlgo` is declared outside
`smartcontracts.go`; the positional fields of an algo registration. -/
structure InputAlgo where
  name : String
  hash : String
  storageAddress : String
  challengeKey : String
deriving DecidableEq, Repr

/-- The arity check against `getFieldNames(&inputChallenge{})` followed by
`stringToInputStruct`: `none` when the number of arguments is not the number of
fields. -/
def stringToInputChallenge : List String → Option InputChallenge
  | [a, b, c, d, e, f, g] => some ⟨a, b, c, d, e, f, g⟩
  | _ => none

/-- The arity check against `getFieldNames(&inputDataset{})` followed by
`stringToInputStruct`. -/
def stringToInputDataset : List String → Option InputDataset
  | [a, b, c, d, e, f, g, h] => some ⟨a, b, c, d, e, f, g, h⟩
  | _ => none

/-- The arity check against `getFieldNames(&inputData{})` followed by
`stringToInputStruct`. -/
def stringToInputData : List String → Option InputData
  | [a, b, c] => some ⟨a, b, c⟩
  | _ => none

/-- The arity check against `getFieldNames(&inputAlgo{})` followed by
`stringToInputStruct`. -/
def stringToInputAlgo : List String → Option InputAlgo
  | [a, b, c, d] => some ⟨a, b, c, d⟩
  | _ => none

/-- A comma-separated list of keys given as one argument; no key for the empty
argument. -/
def keyList (s : String) : List String :=
  if removeSpaces s = "" then [] else stringsSplit (removeSpaces s) ','

/-- Modelled from the spec: `Challenge.Set` is defined outside `smartcontracts.go`;
it validates the hashes, resolves the reference test data to the one dataset they
belong to, and returns the draft, the challenge key and that dataset key.  A
challenge is re-registered by overwriting (section 3), so there is no existence
check. -/
def Challenge.Set (stub : Stub) (inp : InputChallenge) :
    Except Error (Challenge × String × String) :=
  if !(isHash inp.descriptionHash && isHash inp.metricsHash) then .error .invalidIdentifier
  else
    match checkSameDataset stub (stringsSplit (removeSpaces inp.testDataKeys) ',') with
    | .error e => .error e
    | .ok datasetKey =>
        match getTxCreator stub with
        | .error e => .error e
        | .ok owner =>
            .ok ({ owner := owner, name := inp.name,
                   description := ⟨inp.descriptionHash, inp.descriptionStorageAddress⟩,
                   metrics := ⟨inp.metricsHash, inp.metricsStorageAddress⟩,
                   testDataKeys := stringsSplit (removeSpaces inp.testDataKeys) ',',
                   permissions := inp.permissions },
                 inp.descriptionHash, datasetKey)

/-- Modelled from the spec: `Dataset.Set` is defined outside `smartcontracts.go`;
the dataset key is the supplied opener hash, validated as a 256-bit hex digest
before any ledger read; a record already stored at that key is a conflict,
`AlreadyExists` (sections 3, 4.1 and 4.2).  It returns the draft, the key and the
associated challenge keys. -/
def Dataset.Set (stub : Stub) (inp : InputDataset) :
    Except Error (Dataset × String × List String) :=
  if !isHash inp.openerHash then .error .invalidIdentifier
  else if (stub.getState inp.openerHash).isSome then .error .alreadyExists
  else
    match getTxCreator stub with
    | .error e => .error e
    | .ok owner =>
        .ok ({ owner := owner, name := inp.name, type := inp.type,
               permissions := inp.permissions,
               openerStorageAddress := inp.openerStorageAddress,
               description :=
                 if inp.descriptionHash = "" then none
                 else some ⟨inp.descriptionHash, inp.descriptionStorageAddress⟩,
               challengeKeys := keyList inp.challengeKeys },
             inp.openerHash, keyList inp.challengeKeys)

/-- Modelled from the spec: `Dataset.Update` is defined outside `smartcontracts.go`;
every hash of the batch is validated before any ledger read, the dataset must
exist, and a sample already stored is a conflict; the dataset record itself holds
no counter and comes back as stored (sections 3 and 4.2).  It returns the dataset,
its key, the hashes and the test-only flag. -/
def Dataset.Update (stub : Stub) (inp : InputData) :
    Except Error (Dataset × String × List String × Bool) :=
  let dataHashes := stringsSplit (removeSpaces inp.hashes) ','
  if !dataHashes.all isHash then .error .invalidIdentifier
  else
    match parseBool inp.testOnly with
    | none => .error .parseFailure
    | some testOnly =>
        match getDataset stub inp.datasetKey with
        | .error e => .error e
        | .ok dataset =>
            if dataHashes.any (fun h => (stub.getState h).isSome) then .error .alreadyExists
            else .ok (dataset, inp.datasetKey, dataHashes, testOnly)

/-- Modelled from the spec: `Algo.Set` is defined outside `smartcontracts.go`; the
algo key is the supplied hash, validated as a 256-bit hex digest, and a record
already stored at that key is a conflict (sections 4.1 and 4.2).  The Go function
returns its key and its error side by side and fills its receiver: on an invalid
hash both are still the zero values, on a conflict the key is already derived. -/
def Algo.Set (stub : Stub) (inp : InputAlgo) : Algo × String × Option Error :=
  if !isHash inp.hash then ({}, "", some .invalidIdentifier)
  else if (stub.getState inp.hash).isSome then ({}, inp.hash, some .alreadyExists)
  else
    match getTxCreator stub with
    | .error e => ({}, inp.hash, some e)
    | .ok owner =>
        ({ owner := owner, name := inp.name, storageAddress := inp.storageAddress,
           challengeKey := inp.challengeKey }, inp.hash, none)

/-! ## The entry points of `smartcontracts.go` -/

/-- The function `registerChallenge`. -/
def registerChallenge (stub : Stub) (args : List String) : Stub × Outcome :=
  match stringToInputChallenge args with
  | none => (stub, .returned none (some .argumentCount))
  | some inpc =>
      match Challenge.Set stub inpc with
      | .error err => (stub, .returned none (some err))
      | .ok (challenge, challengeKey, datasetKey) =>
          match stub.putState challengeKey (.challenge challenge) with
          | (stub, some _) => (stub, .returned none (some .ledgerWriteFailure))
          | (stub, none) =>
              match createCompositeKey stub "challenge~owner~key"
                  ["challenge", challenge.owner, challengeKey] with
              | (stub, some err) => (stub, .returned none (some err))
              | (stub, none) =>
                  match addChallengeDataset stub datasetKey challengeKey with
                  | (stub, err) => (stub, .returned (some (.bytes datasetKey)) err)

/-- The loop of `registerDataset` over the associated challenge keys. -/
def registerDatasetChallenges (datasetKey : String) : Stub → List String → Stub × Option Error
  | stub, [] => (stub, none)
  | stub, challengeKey :: rest =>
      match createCompositeKey stub "dataset~challenge~key"
          ["dataset", challengeKey, datasetKey] with
      | (stub, some err) => (stub, some err)
      | (stub, none) => registerDatasetChallenges datasetKey stub rest

/-- The function `registerDataset`. -/
def registerDataset (stub : Stub) (args : List String) : Stub × Outcome :=
  match stringToInputDataset args with
  | none => (stub, .returned none (some .argumentCount))
  | some inp =>
      match Dataset.Set stub inp with
      | .error err => (stub, .returned none (some err))
      | .ok (dataset, datasetKey, challengeKeys) =>
          match stub.putState datasetKey (.dataset dataset) with
          | (stub, some _) => (stub, .returned none (some .ledgerWriteFailure))
          | (stub, none) =>
              match registerDatasetChallenges datasetKey stub challengeKeys with
              | (stub, some err) => (stub, .returned none (some err))
              | (stub, none) =>
                  match createCompositeKey stub "dataset~owner~key"
                      ["dataset", dataset.owner, datasetKey] with
                  | (stub, some err) => (stub, .returned none (some err))
                  | (stub, none) => (stub, .returned (some (.bytes datasetKey)) none)

/-- The loop of `registerData` over the data hashes; `dataKeys` is the byte slice
the loop appends to. -/
def registerDataLoop (datasetKey : String) (testOnly : Bool) :
    Stub → String → List String → Stub × Outcome
  | stub, dataKeys, [] => (stub, .returned (some (.bytes dataKeys)) none)
  | stub, dataKeys, dataHash :: rest =>
      let dataKeys := dataKeys ++ (dataHash ++ ", ")
      let data : Data := { datasetKey := datasetKey, testOnly := testOnly }
      match stub.putState dataHash (.data data) with
      | (stub, some _) => (stub, .returned none (some .ledgerWriteFailure))
      | (stub, none) =>
          match createCompositeKey stub "data~dataset~key" ["data", datasetKey, dataHash] with
          | (stub, some err) => (stub, .returned none (some err))
          | (stub, none) =>
              match createCompositeKey stub "data~dataset~testOnly~key"
                  ["data", datasetKey, formatBool testOnly, dataHash] with
              | (stub, some err) => (stub, .returned none (some err))
              | (stub, none) => registerDataLoop datasetKey testOnly stub dataKeys rest

/-- The function `registerData`. -/
def registerData (stub : Stub) (args : List String) : Stub × Outcome :=
  match stringToInputData args with
  | none => (stub, .returned none (some .argumentCount))
  | some inp =>
      match Dataset.Update stub inp with
      | .error err => (stub, .returned none (some err))
      | .ok (dataset, datasetKey, dataHashes, testOnly) =>
          match stub.putState datasetKey (.dataset dataset) with
          | (stub, some _) => (stub, .returned none (some .ledgerWriteFailure))
          | (stub, none) => registerDataLoop datasetKey testOnly stub "" dataHashes

/-- The part of `registerAlgo` after the call of `algo.Set` (lines 146 to 157): the
error `algo.Set` returned is overwritten by the result of `PutState` before it is
ever read. -/
def registerAlgoFrom (stub : Stub) (set : Algo × String × Option Error) : Stub × Outcome :=
  match set with
  | (algo, algoKey, _) =>
      match stub.putState algoKey (.algo algo) with
      | (stub, some _) => (stub, .returned none (some .ledgerWriteFailure))
      | (stub, none) =>
          match createCompositeKey stub "algo~challenge~key"
              ["algo", algo.challengeKey, algoKey] with
          | (stub, some err) => (stub, .returned none (some err))
          | (stub, none) => (stub, .returned (some (.bytes algoKey)) none)

/-- The function `registerAlgo`. -/
def registerAlgo (stub : Stub) (args : List String) : Stub × Outcome :=
  match stringToInputAlgo args with
  | none => (stub, .returned none (some .argumentCount))
  | some inp => registerAlgoFrom stub (Algo.Set stub inp)

/-- The key `createTraintuple` derives (lines 226 and 227): the hex encoding of the
SHA-256 digest of challenge key, algo key, start-model hash, the training-data
keys joined with a comma, and the creator, concatenated. -/
def traintupleKey (challengeKey algoKey startModelHash : String) (trainDataKeys : List String)
    (creator : String) : String :=
  hexEncodeToString (sha256Sum256 (stringBytes
    (challengeKey ++ algoKey ++ startModelHash ++ stringsJoin trainDataKeys "," ++ creator)))

/-- The end of `createTraintuple` (lines 228 to 250): the record is put under the
key, then the three index entries are created. -/
def putTraintuple (stub : Stub) (key algoKey : String) (traintuple : Traintuple) : Stub × Outcome :=
  match stub.putState key (.traintuple traintuple) with
  | (stub, some _) => (stub, .returned none (some .ledgerWriteFailure))
  | (stub, none) =>
      match createCompositeKey stub "traintuple~algo~key" ["traintuple", algoKey, key] with
      | (stub, some err) => (stub, .returned none (some err))
      | (stub, none) =>
          match createCompositeKey stub "traintuple~trainWorker~status~key"
              ["traintuple", traintuple.trainData.worker, "todo", key] with
          | (stub, some err) => (stub, .returned none (some err))
          | (stub, none) =>
              match createCompositeKey stub "traintuple~testWorker~status~key"
                  ["traintuple", traintuple.testData.worker, "todo", key] with
              | (stub, some err) => (stub, .returned none (some err))
              | (stub, none) => (stub, .returned (some (.bytes key)) none)

/-- The traintuple `createTraintuple` builds (lines 179 to 222), or the error of
the first check that fails.  Nothing is written here. -/
def buildTraintuple (stub : Stub) (creator challengeKey algoKey startModelKey : String)
    (trainDataKeys : List String) : Except Error Traintuple :=
  let traintuple : Traintuple := { status := "todo", permissions := "all", creator := creator }
  match checkSameDataset stub trainDataKeys with
  | .error err => .error err
  | .ok trainDatasetKey =>
      match getDataset stub trainDatasetKey with
      | .error err => .error err
      | .ok trainDataset =>
          let traintuple := { traintuple with
            trainData :=
              { worker := trainDataset.owner, keys := trainDataKeys,
                openerHash := trainDatasetKey } }
          match getAlgo stub algoKey with
          | .error err => .error err
          | .ok algo =>
              let traintuple := { traintuple with
                algo := { hash := algoKey, storageAddress := algo.storageAddress } }
              if algoKey ≠ startModelKey then
                fillTraintupleFromModel stub traintuple startModelKey
              else
                fillTraintupleFromAlgo stub traintuple algoKey challengeKey

/-- The function `createTraintuple`; `inputTraintuple` has the four fields the
function reads from `args`. -/
def createTraintuple (stub : Stub) (args : List String) : Stub × Outcome :=
  match args with
  | [challengeKey, algoKey, startModelKey, trainData] =>
      match getTxCreator stub with
      | .error err => (stub, .returned none (some err))
      | .ok creator =>
          let trainDataKeys := stringsSplit (removeSpaces trainData) ','
          match buildTraintuple stub creator challengeKey algoKey startModelKey trainDataKeys with
          | .error err => (stub, .returned none (some err))
          | .ok traintuple =>
              putTraintuple stub
                (traintupleKey challengeKey algoKey traintuple.startModel.hash trainDataKeys
                  creator)
                algoKey traintuple
  | _ => (stub, .returned none (some .argumentCount))

/-- The two index moves that end every transition: the entry of the training
worker, then the entry of the testing worker, from `oldStatus` to `newStatus`;
the payload, the bytes `json.Marshal` gave, is returned when both succeed. -/
def moveStatusIndexes (stub : Stub) (traintuple : Traintuple) (traintupleKey : String)
    (oldStatus newStatus : String) (payload : Option Payload) : Stub × Outcome :=
  match updateCompositeKey stub "traintuple~trainWorker~status~key"
      ["traintuple", traintuple.trainData.worker, oldStatus, traintupleKey]
      ["traintuple", traintuple.trainData.worker, newStatus, traintupleKey] with
  | (stub, some err) => (stub, .returned none (some err))
  | (stub, none) =>
      match updateCompositeKey stub "traintuple~testWorker~status~key"
          ["traintuple", traintuple.testData.worker, oldStatus, traintupleKey]
          ["traintuple", traintuple.testData.worker, newStatus, traintupleKey] with
      | (stub, some err) => (stub, .returned none (some err))
      | (stub, none) => (stub, .returned payload none)

/-- The function `logStartTrainTest`. -/
def logStartTrainTest (stub : Stub) (args : List String) : Stub × Outcome :=
  match args with
  | [traintupleKey, traintupleStatus] =>
      match updateStatusTraintuple stub traintupleKey traintupleStatus with
      | (stub, .error err) => (stub, .returned none (some err))
      | (stub, .ok traintuple) =>
          moveStatusIndexes stub traintuple traintupleKey "todo" traintupleStatus
            (some (.record (.traintuple traintuple)))
  | _ => (stub, .returned none (some .argumentCount))

/-- The function `logSuccessTrain`.  On the struct decoded from a record that is
no traintuple, `traintuple.TrainData.Worker` (line 298) dereferences a nil pointer
and the call aborts. -/
def logSuccessTrain (stub : Stub) (args : List String) : Stub × Outcome :=
  match args with
  | [traintupleKey, endModelArg, perfArg, log] =>
      match getTraintuple stub traintupleKey with
      | .error err => (stub, .returned none (some err))
      | .ok none => (stub, .aborted)
      | .ok (some traintuple) =>
          match checkUpdateTraintuple stub traintuple.trainData.worker traintuple.status
              "trained" with
          | some err => (stub, .returned none (some err))
          | none =>
              match stringsSplit (removeSpaces endModelArg) ',' with
              | [] => (stub, .aborted)
              | endModel0 :: endModelRest =>
                  if endModel0.utf8ByteSize ≠ 64 then
                    (stub, .returned none (some .invalidIdentifier))
                  else
                    match strToPerf perfArg traintuple.trainData.keys with
                    | .error err => (stub, .returned none (some err))
                    | .ok perf =>
                        match checkLog log with
                        | some err => (stub, .returned none (some err))
                        | none =>
                            match endModelRest with
                            | [] => (stub, .aborted)
                            | endModel1 :: _ =>
                                let traintuple := { traintuple with
                                  trainData := { traintuple.trainData with perf := perf }
                                  status := "trained"
                                  endModel := some { hash := endModel0, storageAddress := endModel1 }
                                  log := traintuple.log ++ log }
                                match stub.putState traintupleKey (.traintuple traintuple) with
                                | (stub, some _) =>
                                    (stub, .returned none (some .ledgerWriteFailure))
                                | (stub, none) =>
                                    match createCompositeKey stub "traintuple~endModel~key"
                                        ["traintuple", endModel0, traintupleKey] with
                                    | (stub, some err) => (stub, .returned none (some err))
                                    | (stub, none) =>
                                        moveStatusIndexes stub traintuple traintupleKey
                                          "training" "trained"
                                          (some (.record (.traintuple traintuple)))
  | _ => (stub, .returned none (some .argumentCount))

/-- The function `logFailTrainTest`.  The only field of the traintuple it assigns
is `Log` (line 379).  On the struct decoded from a record that is no traintuple the
status is empty, in neither list of lines 368 to 370, and the call returns the
error of line 373. -/
def logFailTrainTest (stub : Stub) (args : List String) : Stub × Outcome :=
  match args with
  | [traintupleKey, log] =>
      match checkLog log with
      | some err => (stub, .returned none (some err))
      | none =>
          match getTraintuple stub traintupleKey with
          | .error err => (stub, .returned none (some err))
          | .ok none => (stub, .returned none (some .invalidTransition))
          | .ok (some traintuple) =>
              let worker? :=
                if stringInSlice traintuple.status ["todo", "training"] then
                  some traintuple.trainData.worker
                else if stringInSlice traintuple.status ["trained", "testing"] then
                  some traintuple.testData.worker
                else none
              match worker? with
              | none => (stub, .returned none (some .invalidTransition))
              | some worker =>
                  match checkUpdateTraintuple stub worker traintuple.status "failed" with
                  | some err => (stub, .returned none (some err))
                  | none =>
                      let traintuple := { traintuple with log := traintuple.log ++ log }
                      match stub.putState traintupleKey (.traintuple traintuple) with
                      | (stub, some _) => (stub, .returned none (some .ledgerWriteFailure))
                      | (stub, none) =>
                          moveStatusIndexes stub traintuple traintupleKey traintuple.status
                            "failed" (some (.record (.traintuple traintuple)))
  | _ => (stub, .returned none (some .argumentCount))

/-- The function `logSuccessTest`.  On the struct decoded from a record that is no
traintuple, `traintuple.TestData.Worker` (line 413) dereferences a nil pointer and
the call aborts.  When the overall performance parses to `Inf` or `NaN`,
`json.Marshal` fails on it, its error is dropped (line 435) and `traintupleBytes`
is nil: nil is put under the key and nil is the payload. -/
def logSuccessTest (stub : Stub) (args : List String) : Stub × Outcome :=
  match args with
  | [traintupleKey, testPerfArg, perfArg, log] =>
      match getTraintuple stub traintupleKey with
      | .error err => (stub, .returned none (some err))
      | .ok none => (stub, .aborted)
      | .ok (some traintuple) =>
          match checkUpdateTraintuple stub traintuple.testData.worker traintuple.status "done" with
          | some err => (stub, .returned none (some err))
          | none =>
              match strToPerf testPerfArg traintuple.testData.keys with
              | .error err => (stub, .returned none (some err))
              | .ok testPerf =>
                  match parseFloat perfArg with
                  | none => (stub, .returned none (some .parseFailure))
                  | some .notFinite =>
                      match checkLog log with
                      | some err => (stub, .returned none (some err))
                      | none =>
                          match stub.putNil traintupleKey with
                          | (stub, some _) => (stub, .returned none (some .ledgerWriteFailure))
                          | (stub, none) =>
                              moveStatusIndexes stub traintuple traintupleKey "testing" "done"
                                none
                  | some (.finite perf) =>
                      match checkLog log with
                      | some err => (stub, .returned none (some err))
                      | none =>
                          let traintuple := { traintuple with
                            status := "done"
                            testData := { traintuple.testData with perf := testPerf }
                            perf := perf
                            log := traintuple.log ++ log }
                          match stub.putState traintupleKey (.traintuple traintuple) with
                          | (stub, some _) => (stub, .returned none (some .ledgerWriteFailure))
                          | (stub, none) =>
                              moveStatusIndexes stub traintuple traintupleKey "testing" "done"
                                (some (.record (.traintuple traintuple)))
  | _ => (stub, .returned none (some .argumentCount))

/-- The function `query`. -/
def query (stub : Stub) (args : List String) : Stub × Outcome :=
  match args with
  | [key] =>
      match stub.getState key with
      | none => (stub, .returned none (some .notFound))
      | some valBytes => (stub, .returned (some (.record valBytes)) none)
  | _ => (stub, .returned none (some .argumentCount))

/-- The loop of `queryAll` and of `queryModelTraintuples` over the keys of an
index: every record is read and paired with its key. -/
def getElements (stub : Stub) : List String → Except Error (List (String × Record))
  | [] => .ok []
  | key :: rest =>
      match getElementStruct stub key with
      | .error err => .error err
      | .ok element =>
          match getElements stub rest with
          | .error err => .error err
          | .ok elements => .ok ((key, element) :: elements)

/-- The function `queryAll`. -/
def queryAll (stub : Stub) (args : List String) (elementType : String) : Stub × Outcome :=
  if args.length ≠ 0 then (stub, .returned none (some .argumentCount))
  else
    let indexName? :=
      if elementType = "challenge" then some "challenge~owner~key"
      else if elementType = "dataset" then some "dataset~owner~key"
      else if elementType = "algo" then some "algo~challenge~key"
      else if elementType = "traintuple" then some "traintuple~algo~key"
      else none
    match indexName? with
    | none => (stub, .returned none (some .notFound))
    | some indexName =>
        match getElements stub (getKeysFromComposite stub indexName [elementType]) with
        | .error err => (stub, .returned none (some err))
        | .ok elements => (stub, .returned (some (.elements elements)) none)

/-- The function `queryModel`. -/
def queryModel (stub : Stub) (args : List String) : Stub × Outcome :=
  match args with
  | [modelHash] =>
      match getModel stub modelHash with
      | .error err => (stub, .returned none (some err))
      | .ok traintupleBytes => (stub, .returned (some (.record traintupleBytes)) none)
  | _ => (stub, .returned none (some .argumentCount))

/-- The function `queryModelTraintuples`.  When the record `getModel` returns is no
traintuple, the struct `bytesToStruct` fills has a nil `Algo`, and
`traintuple.Algo.Hash` (line 542) aborts. -/
def queryModelTraintuples (stub : Stub) (args : List String) : Stub × Outcome :=
  match args with
  | [modelHash] =>
      match getModel stub modelHash with
      | .error err => (stub, .returned none (some err))
      | .ok (.traintuple traintuple) =>
          match getElementStruct stub traintuple.algo.hash with
          | .error err => (stub, .returned none (some err))
          | .ok algo =>
              match getElements stub (getKeysFromComposite stub "traintuple~algo~key"
                  ["traintuple", traintuple.algo.hash]) with
              | .error err => (stub, .returned none (some err))
              | .ok traintuples =>
                  (stub, .returned (some (.object
                    [("algo", .element traintuple.algo.hash algo),
                     ("traintuples", .elements traintuples)])) none)
      | .ok _ => (stub, .aborted)
  | _ => (stub, .returned none (some .argumentCount))

/-- The function `queryDatasetData`: the payload object has the two entries the
function assigns, `dataset` (line 589) and `trainDataKeys` (line 595). -/
def queryDatasetData (stub : Stub) (args : List String) : Stub × Outcome :=
  match args with
  | [datasetKey] =>
      match getElementStruct stub datasetKey with
      | .error err => (stub, .returned none (some err))
      | .ok dataset =>
          match getDatasetData stub datasetKey true with
          | .error err => (stub, .returned none (some err))
          | .ok trainDataKeys =>
              (stub, .returned (some (.object
                [("dataset", .element datasetKey dataset),
                 ("trainDataKeys", .keys trainDataKeys)])) none)
  | _ => (stub, .returned none (some .argumentCount))

/-! ## Observations on ledgers and outcomes -/

/-- The bytes `registerData` accumulates in `dataKeys` (line 110): every hash
followed by a comma and a space. -/
def dataKeysBytes : List String → String
  | [] => ""
  | dataHash :: rest => (dataHash ++ ", ") ++ dataKeysBytes rest


/-- The payload of an outcome; `none` for a nil payload and for an abort. -/
def Outcome.payload : Outcome → Option Payload
  | .returned payload _ => payload
  | .aborted => none

/-- The error of an outcome; `none` for a nil error and for an abort. -/
def Outcome.err : Outcome → Option Error
  | .returned _ err => err
  | .aborted => none

/-- The traintuple record stored at a key. -/
def storedTraintuple (stub : Stub) (key : String) : Option Traintuple :=
  match stub.getState key with
  | some (.traintuple t) => some t
  | _ => none

/-- The dataset record stored at a key. -/
def storedDataset (stub : Stub) (key : String) : Option Dataset :=
  match stub.getState key with
  | some (.dataset d) => some d
  | _ => none

/-- The algo record stored at a key. -/
def storedAlgo (stub : Stub) (key : String) : Option Algo :=
  match stub.getState key with
  | some (.algo a) => some a
  | _ => none

/-- The data record stored at a key. -/
def storedData (stub : Stub) (key : String) : Option Data :=
  match stub.getState key with
  | some (.data d) => some d
  | _ => none

/-- The names of the entries of a payload that is a JSON object. -/
def payloadFields (out : Outcome) : List String :=
  match out with
  | .returned (some (.object fields)) _ => fields.map Prod.fst
  | _ => []

/-- Every key that occurs in a payload: in its key lists and as key of an element. -/
def payloadKeys (out : Outcome) : List String :=
  match out with
  | .returned (some (.object fields)) _ =>
      fields.flatMap (fun f =>
        match f.2 with
        | .element key _ => [key]
        | .elements l => l.map Prod.fst
        | .keys l => l)
  | _ => []

/-- The payload `TestDataset` of `data_test.go` expects from a data registration
(line 162): the hashes, quoted and joined with a comma and a space, between
`{"keys": [` and `]}`. -/
def expectedKeysPayload (hashes : List String) : String :=
  "\x7b\"keys\": [\"" ++ "\", \"".intercalate hashes ++ "\"]\x7d"

/-- The status of the traintuple record stored at a key. -/
def storedStatus (stub : Stub) (key : String) : Option String :=
  match stub.getState key with
  | some (.traintuple t) => some t.status
  | _ => none

/-- The status of the traintuple record returned as payload. -/
def payloadStatus (out : Outcome) : Option String :=
  match out with
  | .returned (some (.record (.traintuple t))) _ => some t.status
  | _ => none

/-- The (worker, status) pairs a status index holds for a traintuple key. -/
def statusEntries (stub : Stub) (indexName traintupleKey : String) : List (String × String) :=
  stub.index.filterMap (fun e =>
    match e with
    | (name, [_, worker, status, key]) =>
        if name = indexName ∧ key = traintupleKey then some (worker, status) else none
    | _ => none)

/-! ## A ledger built by the entry points

One organisation registers a dataset with a train and a test sample, a challenge
on the test sample and an algo, creates a traintuple and starts its training. -/

def datasetHash : String := "da1bb7c31f62244c0f3a761cc168804227115793d01c270021fe3f7935482dcc"
def trainDataHash : String := "aa1bb7c31f62244c0f3a761cc168804227115793d01c270021fe3f7935482dcc"
def testDataHash : String := "bb1bb7c31f62244c0f3a761cc168804227115793d01c270021fe3f7935482dcc"
def challengeHash : String := "5c1d9cd1c2c1082dde0921b56d11030c81f62fbb51932758b58ac2569dd0b379"
def metricsHash : String := "4a1d9cd1c2c1082dde0921b56d11030c81f62fbb51932758b58ac2569dd0b379"
def algoHash : String := "fd1bb7c31f62244c0f3a761cc168804227115793d01c270021fe3f7935482dcc"
def endModelHash : String := "eedbb7c31f62244c0f3a761cc168804227115793d01c270021fe3f7935482dcc"

/-- The arguments of the dataset registration. -/
def datasetArgs : List String := ["mnist", datasetHash, "https://opener", "images", "", "", "", "all"]

/-- The arguments of the challenge registration. -/
def challengeArgs : List String :=
  ["challenge", challengeHash, "https://description", metricsHash, "https://metrics",
    testDataHash, "all"]

/-- The arguments of the traintuple creation: a first-generation traintuple. -/
def traintupleArgs : List String := [challengeHash, algoHash, algoHash, trainDataHash]

/-- The empty ledger, with `owner` as creator of every transaction. -/
def ledgerEmpty : Stub := { creator := "owner" }

/-- The ledger after the dataset is registered. -/
def ledgerDataset : Stub := (registerDataset ledgerEmpty datasetArgs).1

/-- The ledger after a train sample and a test-only sample are registered. -/
def ledgerData : Stub :=
  (registerData (registerData ledgerDataset [trainDataHash, datasetHash, "false"]).1
    [testDataHash, datasetHash, "true"]).1

/-- The ledger after the challenge and the algo are registered. -/
def ledgerAlgo : Stub :=
  (registerAlgo
    (registerChallenge ledgerData challengeArgs).1
    ["algo", algoHash, "https://algo", challengeHash]).1

/-- The ledger with the dataset and its samples, when the ledger refuses the write
of the index entry that attaches the challenge to the dataset. -/
def ledgerRefusing : Stub :=
  { ledgerData with
    rejected := [compositeKey "dataset~challenge~key" ["dataset", challengeHash, datasetHash]] }

/-- The key of the traintuple of the scenario. -/
def tupleKey : String :=
  traintupleKey challengeHash algoHash algoHash [trainDataHash] "owner"

/-- The ledger after the traintuple is created: status `todo`. -/
def ledgerTodo : Stub := (createTraintuple ledgerAlgo traintupleArgs).1

/-- The ledger after training has started: status `training`. -/
def ledgerTraining : Stub := (logStartTrainTest ledgerTodo [tupleKey, "training"]).1

/-- The ledger after training has succeeded: status `trained`. -/
def ledgerTrained : Stub :=
  (logSuccessTrain ledgerTraining
    [tupleKey, endModelHash ++ ", https://model", trainDataHash ++ ":0.9", "trained"]).1

/-- A string of 64 characters that are not hexadecimal digits. -/
def malformedHash : String := "zzzzzzzzzzzzzzzzzzzzzzzzzzzzzzzzzzzzzzzzzzzzzzzzzzzzzzzzzzzzzzzz"

/-- The ledger of the traintuple in training, when the transaction comes from an
identity that is no worker of the traintuple. -/
def ledgerIntruder : Stub := { ledgerTraining with creator := "intruder" }

/-- A call of one of the three transitions that report a log, without the key of
the traintuple. -/
inductive LogCall
  | successTrain (endModel perf log : String)
  | fail (log : String)
  | successTest (testPerf perf log : String)
deriving DecidableEq, Repr

/-- The log argument of a call. -/
def LogCall.log : LogCall → String
  | .successTrain _ _ log => log
  | .fail log => log
  | .successTest _ _ log => log

/-- The call on the traintuple at a key. -/
def LogCall.run (stub : Stub) (traintupleKey : String) : LogCall → Stub × Outcome
  | .successTrain endModel perf log => logSuccessTrain stub [traintupleKey, endModel, perf, log]
  | .fail log => logFailTrainTest stub [traintupleKey, log]
  | .successTest testPerf perf log => logSuccessTest stub [traintupleKey, testPerf, perf, log]

/-- A sequence of calls on one traintuple, each on the ledger the previous one
left; `none` as soon as a call does not succeed. -/
def runLogCalls (traintupleKey : String) : Stub → List LogCall → Option Stub
  | stub, [] => some stub
  | stub, call :: rest =>
      match call.run stub traintupleKey with
      | (stub, .returned (some _) none) => runLogCalls traintupleKey stub rest
      | _ => none

/-- The log of the traintuple record stored at a key. -/
def storedLog (stub : Stub) (key : String) : Option String :=
  (storedTraintuple stub key).map (fun t => t.log)

/-- The calls of the scenario that report a log: training succeeds, then the
testing worker reports a failure. -/
def logCalls : List LogCall :=
  [.successTrain (endModelHash ++ ", https://model") (trainDataHash ++ ":0.9") "trained",
   .fail " then failed"]

/-- The string `createTraintuple` hashes (line 226). -/
def traintupleKeyBytes (challengeKey algoKey startModelHash : String) (trainDataKeys : List String)
    (creator : String) : String :=
  challengeKey ++ algoKey ++ startModelHash ++ stringsJoin trainDataKeys "," ++ creator

/-- The ledger with the traintuple in status `testing`.  `logStartTrainTest` towards
`testing` writes the record with its new status before its index move fails (the
move is asked from `todo`); the two index entries are moved here from `trained`,
the status they stand at, to `testing`. -/
def ledgerTesting : Stub :=
  (updateCompositeKey
    (updateCompositeKey (logStartTrainTest ledgerTrained [tupleKey, "testing"]).1
      "traintuple~trainWorker~status~key"
      ["traintuple", "owner", "trained", tupleKey] ["traintuple", "owner", "testing", tupleKey]).1
    "traintuple~testWorker~status~key"
    ["traintuple", "owner", "trained", tupleKey] ["traintuple", "owner", "testing", tupleKey]).1

/-! ## Lemmas on the ledger operations -/

set_option maxRecDepth 1000000 in
theorem sha256_test_vector :
    hexEncodeToString (sha256Sum256 (stringBytes "abc"))
      = "ba7816bf8f01cfea414140de5dae2223b00361a396177a9cb410ff61f20015ad" := by
  decide

set_option maxRecDepth 1000000 in
theorem sha256_test_vector_two_blocks :
    hexEncodeToString (sha256Sum256 (stringBytes
        "abcdbcdecdefdefgefghfghighijhijkijkljklmklmnlmnomnopnopq"))
      = "248d6a61d20638b8e5c026930c3e6039a33ce45964ff2167f6ecedd419db06c1" := by
  decide

theorem getState_putState (stub stub' : Stub) (key : String) (value : Record)
    (h : stub.putState key value = (stub', none)) :
    stub'.getState key = some value ∧ stub'.index = stub.index ∧
      stub'.creator = stub.creator ∧ stub'.rejected = stub.rejected := by
  unfold Stub.putState at h
  split at h
  · simp at h
  · simp only [Prod.mk.injEq, and_true] at h
    subst h
    simp [Stub.getState, List.lookup]

theorem putState_err (stub stub' : Stub) (key : String) (value : Record) (e : Error)
    (h : stub.putState key value = (stub', some e)) : stub' = stub := by
  unfold Stub.putState at h
  split at h
  · simp only [Prod.mk.injEq] at h
    exact h.1.symm
  · simp at h

theorem createCompositeKey_ok (stub stub' : Stub) (indexName : String) (attributes : List String)
    (h : createCompositeKey stub indexName attributes = (stub', none)) :
    stub'.state = stub.state ∧ stub'.index = stub.index.insert (indexName, attributes) ∧
      stub'.creator = stub.creator ∧ stub'.rejected = stub.rejected := by
  unfold createCompositeKey at h
  split at h
  · simp at h
  · simp only [Prod.mk.injEq, and_true] at h
    subst h
    simp

theorem createCompositeKey_err (stub stub' : Stub) (indexName : String) (attributes : List String)
    (e : Error) (h : createCompositeKey stub indexName attributes = (stub', some e)) :
    stub' = stub := by
  unfold createCompositeKey at h
  split at h
  · simp only [Prod.mk.injEq] at h
    exact h.1.symm
  · simp at h

theorem updateCompositeKey_ok (stub stub' : Stub) (indexName : String)
    (oldAttributes newAttributes : List String)
    (h : updateCompositeKey stub indexName oldAttributes newAttributes = (stub', none)) :
    stub'.state = stub.state ∧ (indexName, oldAttributes) ∈ stub.index ∧
      stub'.index =
        (stub.index.erase (indexName, oldAttributes)).insert (indexName, newAttributes) ∧
      stub'.creator = stub.creator ∧ stub'.rejected = stub.rejected := by
  unfold updateCompositeKey at h
  split at h
  · simp at h
  · rename_i hmem
    have := createCompositeKey_ok _ _ _ _ h
    simp only [not_not] at hmem
    exact ⟨this.1, hmem, this.2.1, this.2.2.1, this.2.2.2⟩

theorem moveStatusIndexes_ok (stub stub' : Stub) (traintuple : Traintuple) (key : String)
    (oldStatus newStatus : String) (payload p : Option Payload)
    (h : moveStatusIndexes stub traintuple key oldStatus newStatus payload =
      (stub', .returned p none)) :
    stub'.state = stub.state ∧ p = payload := by
  unfold moveStatusIndexes at h
  split at h
  · simp at h
  · rename_i s1 h1
    split at h
    · simp at h
    · rename_i s2 h2
      simp only [Prod.mk.injEq, Outcome.returned.injEq, and_true] at h
      have a := updateCompositeKey_ok _ _ _ _ _ h1
      have b := updateCompositeKey_ok _ _ _ _ _ h2
      refine ⟨?_, h.2.symm⟩
      rw [← h.1, b.1, a.1]

/-! ## Lemmas on the entry points -/

theorem logFailTrainTest_ok (stub stub' : Stub) (key log : String) (p : Option Payload)
    (h : logFailTrainTest stub [key, log] = (stub', .returned p none)) :
    ∃ t, getTraintuple stub key = .ok (some t) ∧
      stub'.getState key = some (.traintuple { t with log := t.log ++ log }) ∧
      p = some (.record (.traintuple { t with log := t.log ++ log })) ∧
      t.status ∈ ["todo", "training", "trained", "testing"] ∧
      checkLog log = none := by
  simp only [logFailTrainTest] at h
  split at h
  · simp at h
  · rename_i hlog
    split at h
    · simp at h
    · simp at h
    · rename_i t ht
      split at h
      · simp at h
      · rename_i worker hw
        split at h
        · simp at h
        · split at h
          · simp at h
          · rename_i s1 hput
            have hm := moveStatusIndexes_ok _ _ _ _ _ _ _ _ h
            have hp := getState_putState _ _ _ _ hput
            refine ⟨t, ht, ?_, hm.2, ?_, hlog⟩
            · simp only [Stub.getState] at hp ⊢
              rw [hm.1]
              exact hp.1
            · simp only [stringInSlice] at hw
              split at hw
              · rename_i h1
                simp at h1
                rcases h1 with h1 | h1 <;> simp [h1]
              · split at hw
                · rename_i h1 h2
                  simp at h2
                  rcases h2 with h2 | h2 <;> simp [h2]
                · simp at hw

theorem fillTraintupleFromAlgo_ok (stub : Stub) (t0 t : Traintuple) (algoKey challengeKey : String)
    (h : fillTraintupleFromAlgo stub t0 algoKey challengeKey = .ok t) :
    t.status = t0.status ∧ t.creator = t0.creator ∧ t.endModel = t0.endModel ∧ t.log = t0.log ∧
      t.trainData = t0.trainData ∧ t.algo = t0.algo ∧ t.permissions = t0.permissions ∧
      t.startModel.hash = algoKey := by
  unfold fillTraintupleFromAlgo at h
  split at h
  · simp at h
  · split at h
    · simp at h
    · split at h
      · simp at h
      · split at h
        · simp at h
        · simp only [Except.ok.injEq] at h
          subst h
          simp

theorem fillTraintupleFromModel_ok (stub : Stub) (t0 t : Traintuple) (startModelKey : String)
    (h : fillTraintupleFromModel stub t0 startModelKey = .ok t) :
    t.status = t0.status ∧ t.creator = t0.creator ∧ t.endModel = t0.endModel ∧ t.log = t0.log ∧
      t.trainData = t0.trainData ∧ t.algo = t0.algo ∧ t.permissions = t0.permissions ∧
      t.startModel.hash = startModelKey := by
  unfold fillTraintupleFromModel at h
  split at h
  · simp at h
  · split at h
    · simp at h
    · simp at h
    · split at h
      · simp at h
      · simp only [Except.ok.injEq] at h
        subst h
        simp

theorem buildTraintuple_ok (stub : Stub) (creator challengeKey algoKey startModelKey : String)
    (trainDataKeys : List String) (t : Traintuple)
    (h : buildTraintuple stub creator challengeKey algoKey startModelKey trainDataKeys = .ok t) :
    t.status = "todo" ∧ t.creator = creator ∧ t.endModel = none ∧ t.log = "" ∧
      t.permissions = "all" ∧ t.algo.hash = algoKey ∧ t.startModel.hash = startModelKey ∧
      ∃ datasetKey dataset, checkSameDataset stub trainDataKeys = .ok datasetKey ∧
        getDataset stub datasetKey = .ok dataset ∧
        t.trainData = { worker := dataset.owner, keys := trainDataKeys, openerHash := datasetKey } := by
  unfold buildTraintuple at h
  simp only at h
  split at h
  · simp at h
  · rename_i datasetKey hk
    split at h
    · simp at h
    · rename_i dataset hd
      split at h
      · simp at h
      · split at h
        · rename_i hne
          have := fillTraintupleFromModel_ok _ _ _ _ h
          simp only at this
          obtain ⟨a, b, c, d, e, f, g, i⟩ := this
          exact ⟨a, b, c, d, g, by rw [f], i, datasetKey, dataset, hk, hd, e⟩
        · rename_i heq
          simp only [ne_eq, not_not] at heq
          have := fillTraintupleFromAlgo_ok _ _ _ _ _ h
          simp only at this
          obtain ⟨a, b, c, d, e, f, g, i⟩ := this
          exact ⟨a, b, c, d, g, by rw [f], by rw [i, heq], datasetKey, dataset, hk, hd, e⟩

theorem putTraintuple_ok (stub stub' : Stub) (key algoKey : String) (t : Traintuple)
    (p : Option Payload) (h : putTraintuple stub key algoKey t = (stub', .returned p none)) :
    p = some (.bytes key) ∧ stub'.getState key = some (.traintuple t) ∧
      ("traintuple~algo~key", ["traintuple", algoKey, key]) ∈ stub'.index ∧
      ("traintuple~trainWorker~status~key", ["traintuple", t.trainData.worker, "todo", key])
        ∈ stub'.index ∧
      ("traintuple~testWorker~status~key", ["traintuple", t.testData.worker, "todo", key])
        ∈ stub'.index := by
  unfold putTraintuple at h
  split at h
  · simp at h
  · rename_i s1 h1
    split at h
    · simp at h
    · rename_i s2 h2
      split at h
      · simp at h
      · rename_i s3 h3
        split at h
        · simp at h
        · rename_i s4 h4
          simp only [Prod.mk.injEq, Outcome.returned.injEq, and_true] at h
          obtain ⟨hs, hp⟩ := h
          subst hs
          have a1 := getState_putState _ _ _ _ h1
          have a2 := createCompositeKey_ok _ _ _ _ h2
          have a3 := createCompositeKey_ok _ _ _ _ h3
          have a4 := createCompositeKey_ok _ _ _ _ h4
          refine ⟨hp.symm, ?_, ?_, ?_, ?_⟩
          · simp only [Stub.getState] at a1 ⊢
            rw [a4.1, a3.1, a2.1]
            exact a1.1
          · rw [a4.2.1, a3.2.1, a2.2.1]
            simp [List.mem_insert_iff]
          · rw [a4.2.1, a3.2.1]
            simp [List.mem_insert_iff]
          · rw [a4.2.1]
            simp [List.mem_insert_iff]

theorem putTraintuple_accepted (stub : Stub) (key algoKey : String) (t : Traintuple)
    (h : stub.rejected = []) :
    (putTraintuple stub key algoKey t).2 = .returned (some (.bytes key)) none := by
  simp [putTraintuple, Stub.putState, createCompositeKey, h]

theorem createTraintuple_builds (stub : Stub) (c a s d : String) (t : Traintuple)
    (h : buildTraintuple stub stub.creator c a s (stringsSplit (removeSpaces d) ',') = .ok t) :
    createTraintuple stub [c, a, s, d] =
      putTraintuple stub (traintupleKey c a s (stringsSplit (removeSpaces d) ',') stub.creator)
        a t := by
  have hs := (buildTraintuple_ok _ _ _ _ _ _ _ h).2.2.2.2.2.2.1
  simp only [createTraintuple, getTxCreator, h, hs]

theorem registerDatasetChallenges_ok (datasetKey : String) (challengeKeys : List String) :
    ∀ (stub stub' : Stub), registerDatasetChallenges datasetKey stub challengeKeys = (stub', none) →
      stub'.state = stub.state ∧ (∀ e ∈ stub.index, e ∈ stub'.index) ∧
      ∀ c ∈ challengeKeys, ("dataset~challenge~key", ["dataset", c, datasetKey]) ∈ stub'.index := by
  induction challengeKeys with
  | nil =>
      intro stub stub' h
      simp only [registerDatasetChallenges, Prod.mk.injEq, and_true] at h
      subst h
      simp
  | cons c rest ih =>
      intro stub stub' h
      simp only [registerDatasetChallenges] at h
      split at h
      · simp at h
      · rename_i s1 h1
        have a := createCompositeKey_ok _ _ _ _ h1
        have b := ih s1 stub' h
        refine ⟨by rw [b.1, a.1], ?_, ?_⟩
        · intro e he
          apply b.2.1
          rw [a.2.1]
          exact List.mem_insert_iff.mpr (Or.inr he)
        · intro c' hc'
          rcases List.mem_cons.mp hc' with hc' | hc'
          · subst hc'
            apply b.2.1
            rw [a.2.1]
            exact List.mem_insert_iff.mpr (Or.inl rfl)
          · exact b.2.2 c' hc'

theorem Dataset.Set_ok (stub : Stub) (inp : InputDataset) (d : Dataset) (key : String)
    (challengeKeys : List String) (h : Dataset.Set stub inp = .ok (d, key, challengeKeys)) :
    key = inp.openerHash ∧ challengeKeys = keyList inp.challengeKeys ∧
      d.owner = stub.creator ∧ d.challengeKeys = challengeKeys ∧
      isHash inp.openerHash = true ∧ stub.getState inp.openerHash = none := by
  unfold Dataset.Set at h
  split at h
  · simp at h
  · rename_i hh
    split at h
    · simp at h
    · rename_i hs
      simp only [getTxCreator, Except.ok.injEq, Prod.mk.injEq] at h
      obtain ⟨hd, hk, hc⟩ := h
      subst hd
      refine ⟨hk.symm, hc.symm, rfl, hc, by simpa using hh, ?_⟩
      simpa using hs

theorem registerAlgoFrom_accepted (stub : Stub) (algo : Algo) (algoKey : String)
    (err : Option Error) (h : stub.rejected = []) :
    (registerAlgoFrom stub (algo, algoKey, err)).2 = .returned (some (.bytes algoKey)) none ∧
      (registerAlgoFrom stub (algo, algoKey, err)).1.getState algoKey = some (.algo algo) ∧
      ("algo~challenge~key", ["algo", algo.challengeKey, algoKey])
        ∈ (registerAlgoFrom stub (algo, algoKey, err)).1.index := by
  simp [registerAlgoFrom, Stub.putState, createCompositeKey, h, Stub.getState, List.lookup,
    List.mem_insert_iff]

theorem registerDataLoop_payload (datasetKey : String) (testOnly : Bool) (dataHashes : List String) :
    ∀ (stub stub' : Stub) (dataKeys : String) (p : Option Payload),
      registerDataLoop datasetKey testOnly stub dataKeys dataHashes = (stub', .returned p none) →
      p = some (.bytes (dataKeys ++ dataKeysBytes dataHashes)) := by
  induction dataHashes with
  | nil =>
      intro stub stub' dataKeys p h
      simp only [registerDataLoop, Prod.mk.injEq, Outcome.returned.injEq, and_true] at h
      simp [dataKeysBytes, ← h.2]
  | cons dataHash rest ih =>
      intro stub stub' dataKeys p h
      simp only [registerDataLoop] at h
      split at h
      · simp at h
      · split at h
        · simp at h
        · split at h
          · simp at h
          · rw [ih _ _ _ _ h]
            simp [dataKeysBytes, String.append_assoc]

theorem registerData_payload (stub : Stub) (hashes datasetKey testOnly : String)
    (p : Option Payload)
    (h : (registerData stub [hashes, datasetKey, testOnly]).2 = .returned p none) :
    p = some (.bytes (dataKeysBytes (stringsSplit (removeSpaces hashes) ','))) := by
  simp only [registerData, stringToInputData] at h
  split at h
  · cases h
  · rename_i d k hs b hu
    have hk : hs = stringsSplit (removeSpaces hashes) ',' := by
      unfold Dataset.Update at hu
      simp only at hu
      split at hu
      · simp at hu
      · split at hu
        · simp at hu
        · split at hu
          · simp at hu
          · split at hu
            · simp at hu
            · simp only [Except.ok.injEq, Prod.mk.injEq] at hu
              exact hu.2.2.1.symm
    split at h
    · cases h
    · have := registerDataLoop_payload _ _ _ _ _ _ _ (Prod.ext rfl h)
      simpa [hk] using this

theorem createTraintuple_ok (stub : Stub) (args : List String) (p : Payload)
    (h : (createTraintuple stub args).2 = .returned (some p) none) :
    ∃ c a s d t, args = [c, a, s, d] ∧
      buildTraintuple stub stub.creator c a s (stringsSplit (removeSpaces d) ',') = .ok t ∧
      p = .bytes (traintupleKey c a s (stringsSplit (removeSpaces d) ',') stub.creator) := by
  unfold createTraintuple at h
  split at h
  · rename_i c a s d
    simp only [getTxCreator] at h
    split at h
    · cases h
    · rename_i t ht
      have hs := (buildTraintuple_ok _ _ _ _ _ _ _ ht).2.2.2.2.2.2.1
      have := putTraintuple_ok stub _ _ _ t (some p) (Prod.ext rfl h)
      refine ⟨c, a, s, d, t, rfl, ht, ?_⟩
      rw [← hs]
      simpa using this.1
  · cases h

theorem splitChars_ne_nil (sep : Char) (l : List Char) : splitChars sep l ≠ [] := by
  cases l with
  | nil => simp [splitChars]
  | cons c cs =>
      simp only [splitChars]
      split
      · simp
      · split <;> simp

theorem stringsSplit_eq_cons (s : String) (sep : Char) :
    ∃ first rest, stringsSplit s sep = first :: rest := by
  unfold stringsSplit
  cases h : splitChars sep s.toList with
  | nil => exact absurd h (splitChars_ne_nil _ _)
  | cons w ws => exact ⟨_, _, rfl⟩

theorem getTraintuple_of_stored (stub : Stub) (key : String) (t : Traintuple)
    (h : storedTraintuple stub key = some t) : getTraintuple stub key = .ok (some t) := by
  unfold storedTraintuple at h
  unfold getTraintuple
  split at h
  · rename_i t' ht'
    simp only [Option.some.injEq] at h
    subst h
    simp [ht']
  · simp at h

theorem storedLog_of_getState (stub : Stub) (key : String) (t : Traintuple)
    (h : stub.getState key = some (.traintuple t)) : storedLog stub key = some t.log := by
  simp [storedLog, storedTraintuple, h]

theorem storedLog_of_getTraintuple (stub : Stub) (key : String) (t : Traintuple)
    (h : getTraintuple stub key = .ok (some t)) : storedLog stub key = some t.log := by
  unfold getTraintuple at h
  split at h
  · simp at h
  · rename_i t' ht'
    simp only [Except.ok.injEq, Option.some.injEq] at h
    subst h
    exact storedLog_of_getState _ _ _ ht'
  · simp at h

theorem logFailTrainTest_log (stub stub' : Stub) (key log : String) (p : Option Payload)
    (L : String) (hL : storedLog stub key = some L)
    (h : logFailTrainTest stub [key, log] = (stub', .returned p none)) :
    storedLog stub' key = some (L ++ log) := by
  obtain ⟨t, ht, hs, -⟩ := logFailTrainTest_ok _ _ _ _ _ h
  rw [storedLog_of_getTraintuple _ _ _ ht] at hL
  simp only [Option.some.injEq] at hL
  rw [storedLog_of_getState _ _ _ hs, hL]

theorem logSuccessTrain_log (stub stub' : Stub) (key endModel perf log : String)
    (p : Option Payload) (L : String) (hL : storedLog stub key = some L)
    (h : logSuccessTrain stub [key, endModel, perf, log] = (stub', .returned p none)) :
    storedLog stub' key = some (L ++ log) ∧ storedStatus stub' key = some "trained" := by
  simp only [logSuccessTrain] at h
  split at h
  · simp at h
  · simp at h
  · rename_i t ht
    rw [storedLog_of_getTraintuple _ _ _ ht] at hL
    simp only [Option.some.injEq] at hL
    split at h
    · simp at h
    · split at h
      · simp at h
      · split at h
        · simp at h
        · split at h
          · simp at h
          · split at h
            · simp at h
            · split at h
              · simp at h
              · split at h
                · simp at h
                · rename_i s1 h1
                  split at h
                  · simp at h
                  · rename_i s2 h2
                    have a1 := getState_putState _ _ _ _ h1
                    have a2 := createCompositeKey_ok _ _ _ _ h2
                    have a3 := moveStatusIndexes_ok _ _ _ _ _ _ _ _ h
                    have hg : stub'.getState key = s1.getState key := by
                      simp only [Stub.getState]
                      rw [a3.1, a2.1]
                    constructor
                    · simp only [storedLog, storedTraintuple, hg, a1.1, Option.map_some', hL]
                    · simp only [storedStatus, hg, a1.1]

theorem logSuccessTest_log (stub stub' : Stub) (key testPerf perf log : String)
    (pl : Payload) (L : String) (hL : storedLog stub key = some L)
    (h : logSuccessTest stub [key, testPerf, perf, log] = (stub', .returned (some pl) none)) :
    storedLog stub' key = some (L ++ log) ∧ storedStatus stub' key = some "done" := by
  simp only [logSuccessTest] at h
  split at h
  · simp at h
  · simp at h
  · rename_i t ht
    rw [storedLog_of_getTraintuple _ _ _ ht] at hL
    simp only [Option.some.injEq] at hL
    split at h
    · simp at h
    · split at h
      · simp at h
      · split at h
        · simp at h
        · split at h
          · simp at h
          · split at h
            · simp at h
            · have a3 := moveStatusIndexes_ok _ _ _ _ _ _ _ _ h
              simp at a3
        · split at h
          · simp at h
          · split at h
            · simp at h
            · rename_i s1 h1
              have a1 := getState_putState _ _ _ _ h1
              have a3 := moveStatusIndexes_ok _ _ _ _ _ _ _ _ h
              have hg : stub'.getState key = s1.getState key := by
                simp only [Stub.getState]
                rw [a3.1]
              constructor
              · simp only [storedLog, storedTraintuple, hg, a1.1, Option.map_some', hL]
              · simp only [storedStatus, hg, a1.1]

theorem LogCall.run_log (call : LogCall) (stub stub' : Stub) (key : String) (pl : Payload)
    (L : String) (hL : storedLog stub key = some L)
    (h : call.run stub key = (stub', .returned (some pl) none)) :
    storedLog stub' key = some (L ++ call.log) := by
  cases call with
  | successTrain e pf l => exact (logSuccessTrain_log _ _ _ _ _ _ _ _ hL h).1
  | fail l => exact logFailTrainTest_log _ _ _ _ _ _ hL h
  | successTest tp pf l => exact (logSuccessTest_log _ _ _ _ _ _ _ _ hL h).1

theorem getState_putState_ne (stub stub' : Stub) (key k : String) (value : Record)
    (h : stub.putState key value = (stub', none)) (hk : k ≠ key) :
    stub'.getState k = stub.getState k := by
  unfold Stub.putState at h
  split at h
  · simp at h
  · simp only [Prod.mk.injEq, and_true] at h
    subst h
    have : (k == key) = false := by simpa using hk
    simp [Stub.getState, List.lookup, this]

theorem registerDataLoop_ok (datasetKey : String) (testOnly : Bool) (dataHashes : List String) :
    ∀ (stub stub' : Stub) (dataKeys : String) (p : Option Payload),
      registerDataLoop datasetKey testOnly stub dataKeys dataHashes = (stub', .returned p none) →
      (∀ k, stub'.getState k =
        if k ∈ dataHashes then some (.data ⟨datasetKey, testOnly⟩) else stub.getState k) ∧
      (∀ e, e ∈ stub'.index ↔ e ∈ stub.index ∨ ∃ h ∈ dataHashes,
        e = ("data~dataset~key", ["data", datasetKey, h]) ∨
        e = ("data~dataset~testOnly~key", ["data", datasetKey, formatBool testOnly, h])) := by
  induction dataHashes with
  | nil =>
      intro stub stub' dataKeys p h
      simp only [registerDataLoop, Prod.mk.injEq, Outcome.returned.injEq, and_true] at h
      obtain ⟨h, -⟩ := h
      subst h
      simp
  | cons dataHash rest ih =>
      intro stub stub' dataKeys p h
      simp only [registerDataLoop] at h
      split at h
      · simp at h
      · rename_i s1 h1
        split at h
        · simp at h
        · rename_i s2 h2
          split at h
          · simp at h
          · rename_i s3 h3
            have a1 := getState_putState _ _ _ _ h1
            have a2 := createCompositeKey_ok _ _ _ _ h2
            have a3 := createCompositeKey_ok _ _ _ _ h3
            obtain ⟨b1, b2⟩ := ih _ _ _ _ h
            have hs3 : ∀ k, s3.getState k = s1.getState k := by
              intro k
              simp only [Stub.getState]
              rw [a3.1, a2.1]
            constructor
            · intro k
              rw [b1 k]
              by_cases hr : k ∈ rest
              · simp [hr]
              · by_cases hk : k = dataHash
                · subst hk
                  simp [hr, hs3, a1.1]
                · simp [hr, hk, hs3, getState_putState_ne _ _ _ _ _ h1 hk]
            · intro e
              rw [b2 e, a3.2.1, a2.2.1, a1.2.1]
              simp only [List.mem_insert_iff, List.mem_cons, exists_eq_or_imp]
              have hprop : ∀ A B C Q : Prop, ((A ∨ B ∨ C) ∨ Q ↔ C ∨ (B ∨ A) ∨ Q) := by
                intro A B C Q
                tauto
              exact hprop _ _ _ _

theorem Dataset.Update_ok (stub : Stub) (inp : InputData) (dataset : Dataset) (datasetKey : String)
    (dataHashes : List String) (testOnly : Bool)
    (h : Dataset.Update stub inp = .ok (dataset, datasetKey, dataHashes, testOnly)) :
    datasetKey = inp.datasetKey ∧ dataHashes = stringsSplit (removeSpaces inp.hashes) ',' ∧
      parseBool inp.testOnly = some testOnly ∧ getDataset stub inp.datasetKey = .ok dataset := by
  unfold Dataset.Update at h
  simp only at h
  split at h
  · simp at h
  · split at h
    · simp at h
    · rename_i b hb
      split at h
      · simp at h
      · rename_i d hd
        split at h
        · simp at h
        · simp only [Except.ok.injEq, Prod.mk.injEq] at h
          obtain ⟨h1, h2, h3, h4⟩ := h
          subst h1 h2 h3 h4
          exact ⟨rfl, rfl, hb, hd⟩

theorem storedData_of_getData (stub : Stub) (key : String) (d : Data)
    (h : getData stub key = .ok d) : storedData stub key = some d := by
  unfold getData at h
  split at h
  · rename_i d' hd'
    simp only [Except.ok.injEq] at h
    subst h
    simp [storedData, hd']
  · simp at h

theorem storedDataset_of_getDataset (stub : Stub) (key : String) (d : Dataset)
    (h : getDataset stub key = .ok d) : storedDataset stub key = some d := by
  unfold getDataset at h
  split at h
  · rename_i d' hd'
    simp only [Except.ok.injEq] at h
    subst h
    simp [storedDataset, hd']
  · simp at h

theorem checkSameDataset_ok (stub : Stub) (dataKeys : List String) :
    ∀ datasetKey, checkSameDataset stub dataKeys = .ok datasetKey →
      ∀ k ∈ dataKeys, (storedData stub k).map (fun d => d.datasetKey) = some datasetKey := by
  induction dataKeys with
  | nil => intro _ _ k hk; simp at hk
  | cons dataKey rest ih =>
      intro datasetKey h k hk
      cases rest with
      | nil =>
          simp only [checkSameDataset] at h
          split at h
          · simp at h
          · rename_i d hd
            simp only [Except.ok.injEq] at h
            simp only [List.mem_singleton] at hk
            subst hk
            simp [storedData_of_getData _ _ _ hd, h]
      | cons k2 rest2 =>
          simp only [checkSameDataset] at h
          split at h
          · simp at h
          · rename_i d hd
            split at h
            · simp at h
            · rename_i dk hrest
              split at h
              · rename_i heq
                simp only [Except.ok.injEq] at h
                subst h
                rcases List.mem_cons.mp hk with hk | hk
                · subst hk
                  simp [storedData_of_getData _ _ _ hd, heq]
                · exact ih dk hrest k hk
              · simp at h

theorem traintupleKey_eq (c a s : String) (keys : List String) (u : String) :
    traintupleKey c a s keys u
      = hexEncodeToString (sha256Sum256 (stringBytes (traintupleKeyBytes c a s keys u))) := rfl

theorem intercalate_go_data (sep : String) (l : List String) :
    ∀ acc : String, (String.intercalate.go acc sep l).data
      = acc.data ++ l.flatMap (fun a => sep.data ++ a.data) := by
  induction l with
  | nil => intro acc; simp [String.intercalate.go]
  | cons a as ih =>
      intro acc
      simp [String.intercalate.go, ih, List.append_assoc]

theorem stringsJoin_cons_data (k : String) (ks : List String) :
    (stringsJoin (k :: ks) ",").data = k.data ++ ks.flatMap (fun a => ',' :: a.data) := by
  simp only [stringsJoin, String.intercalate, intercalate_go_data]
  rfl

theorem joined_tail_inj (ks : List String) :
    ∀ (ks' : List String) (u u' : List Char),
      (∀ k ∈ ks, k.length = 64) → (∀ k ∈ ks', k.length = 64) → ',' ∉ u → ',' ∉ u' →
      ks.flatMap (fun a => ',' :: a.data) ++ u = ks'.flatMap (fun a => ',' :: a.data) ++ u' →
      ks = ks' ∧ u = u' := by
  induction ks with
  | nil =>
      intro ks' u u' _ _ hu _ h
      cases ks' with
      | nil => simpa using h
      | cons k' rest' =>
          exfalso
          apply hu
          simp at h
          rw [h]
          simp
  | cons k rest ih =>
      intro ks' u u' hk hk' hu hu' h
      cases ks' with
      | nil =>
          exfalso
          apply hu'
          simp at h
          rw [← h]
          simp
      | cons k' rest' =>
          simp only [List.flatMap_cons, List.cons_append, List.append_assoc, List.cons.injEq,
            true_and] at h
          have hl : k.data.length = k'.data.length := by
            have h1 := hk k (List.mem_cons_self _ _)
            have h2 := hk' k' (List.mem_cons_self _ _)
            simp only [String.length] at h1 h2
            rw [h1, h2]
          obtain ⟨e1, e2⟩ := List.append_inj h hl
          obtain ⟨e3, e4⟩ := ih rest' u u' (fun x hx => hk x (List.mem_cons_of_mem _ hx))
            (fun x hx => hk' x (List.mem_cons_of_mem _ hx)) hu hu' e2
          have : k = k' := String.ext e1
          exact ⟨by rw [this, e3], e4⟩

theorem getTraintuple_none (stub : Stub) (key : String)
    (h : getTraintuple stub key = .ok none) :
    stub.getState key ≠ none ∧ storedTraintuple stub key = none := by
  unfold getTraintuple at h
  unfold storedTraintuple
  split at h
  · simp at h
  · simp at h
  · rename_i r hnot hr
    rw [hr]
    refine ⟨by simp, ?_⟩
    cases r with
    | traintuple t => exact absurd rfl (hnot t)
    | challenge c => rfl
    | dataset d => rfl
    | data d => rfl
    | algo a => rfl

/-- A sequence of calls of `logSuccessTrain`, `logFailTrainTest` and
`logSuccessTest` that each return their record as payload, with the logs
`l1, ..., ln`, on a traintuple whose stored log is `L`: the stored log afterwards is
`L ++ l1 ++ ... ++ ln`. -/
theorem log_accumulates (traintupleKey : String) (calls : List LogCall) :
    ∀ (stub stub' : Stub) (L : String), storedLog stub traintupleKey = some L →
      runLogCalls traintupleKey stub calls = some stub' →
      storedLog stub' traintupleKey = some ((calls.map LogCall.log).foldl (· ++ ·) L) := by
  induction calls with
  | nil =>
      intro stub stub' L hL h
      simp only [runLogCalls, Option.some.injEq] at h
      subst h
      simpa using hL
  | cons call rest ih =>
      intro stub stub' L hL h
      simp only [runLogCalls] at h
      split at h
      · rename_i s1 p hrun
        have := LogCall.run_log call _ _ _ _ _ hL hrun
        simpa using ih s1 stub' _ this h
      · simp at h

set_option maxRecDepth 1000000 in
/-- The accumulation of the log on the traintuple in training, whose log is empty:
training succeeds with the log `trained`, then a failure is reported with the log
` then failed`. -/
theorem log_accumulates_witness :
    storedLog ledgerTraining tupleKey = some "" ∧
    (runLogCalls tupleKey ledgerTraining logCalls).isSome = true ∧
    storedLog ((runLogCalls tupleKey ledgerTraining logCalls).getD ledgerEmpty) tupleKey
      = some ((logCalls.map LogCall.log).foldl (· ++ ·) "") :=
  ⟨by decide, by decide,
    log_accumulates tupleKey logCalls ledgerTraining
      ((runLogCalls tupleKey ledgerTraining logCalls).getD ledgerEmpty) "" (by decide)
      (by decide)⟩

/-! ## C1: the status after `logFailTrainTest` -/

set_option maxRecDepth 1000000 in
/-- C1, evaluated on the code: `logFailTrainTest`, called with a valid log by the
training worker on the traintuple in status `training`, succeeds, and both the
record it returns and the record stored at the key afterwards still have status
`training`, not `failed`: the function never assigns the status. -/
theorem logFailTrainTest_leaves_status :
    storedStatus ledgerTraining tupleKey = some "training" ∧
    (logFailTrainTest ledgerTraining [tupleKey, "out of memory"]).2.err = none ∧
    payloadStatus (logFailTrainTest ledgerTraining [tupleKey, "out of memory"]).2
      = some "training" ∧
    storedStatus (logFailTrainTest ledgerTraining [tupleKey, "out of memory"]).1 tupleKey
      = some "training" := by
  decide

/-! ## C2: the status indexes across a transition -/

set_option maxRecDepth 1000000 in
/-- C2, evaluated on the code.  After a successful `logFailTrainTest` on the
traintuple in status `training`, each role index holds the one entry
(worker, `failed`) while the stored status is still `training`: the entry added
does not carry the status stored after the call.  And `logStartTrainTest` towards
`testing`, on the traintuple in status `trained` whose index entries are
(worker, `trained`), asks for the removal of (worker, `todo`): the record is
already written with status `testing` when the index move fails, and the index
keeps (worker, `trained`). -/
theorem status_index_out_of_step :
    (logFailTrainTest ledgerTraining [tupleKey, "out of memory"]).2.err = none ∧
    storedStatus (logFailTrainTest ledgerTraining [tupleKey, "out of memory"]).1 tupleKey
      = some "training" ∧
    statusEntries (logFailTrainTest ledgerTraining [tupleKey, "out of memory"]).1
      "traintuple~trainWorker~status~key" tupleKey = [("owner", "failed")] ∧
    statusEntries (logFailTrainTest ledgerTraining [tupleKey, "out of memory"]).1
      "traintuple~testWorker~status~key" tupleKey = [("owner", "failed")] ∧
    storedStatus ledgerTrained tupleKey = some "trained" ∧
    statusEntries ledgerTrained "traintuple~trainWorker~status~key" tupleKey
      = [("owner", "trained")] ∧
    statusEntries ledgerTrained "traintuple~testWorker~status~key" tupleKey
      = [("owner", "trained")] ∧
    (logStartTrainTest ledgerTrained [tupleKey, "testing"]).2
      = .returned none (some .indexConsistency) ∧
    storedStatus (logStartTrainTest ledgerTrained [tupleKey, "testing"]).1 tupleKey
      = some "testing" ∧
    statusEntries (logStartTrainTest ledgerTrained [tupleKey, "testing"]).1
      "traintuple~testWorker~status~key" tupleKey = [("owner", "trained")] := by
  decide

/-! ## C3: `createTraintuple` on a key that is already taken -/

set_option maxRecDepth 1000000 in
/-- C3 as stated fails: the ledger holds, at the key derived from the inputs, the
traintuple in status `trained` with its log; `createTraintuple` with the same
inputs returns the key without any error, and the record stored at the key is
then a traintuple in status `todo` with an empty log and no end model. -/
theorem createTraintuple_existing_key_no_conflict :
    storedStatus ledgerTrained tupleKey = some "trained" ∧
    (storedTraintuple ledgerTrained tupleKey).map (fun t => t.log) = some "trained" ∧
    (createTraintuple ledgerTrained traintupleArgs).2
      = .returned (some (.bytes tupleKey)) none ∧
    storedStatus (createTraintuple ledgerTrained traintupleArgs).1 tupleKey = some "todo" ∧
    (storedTraintuple (createTraintuple ledgerTrained traintupleArgs).1 tupleKey).map
      (fun t => (t.log, t.endModel)) = some ("", none) := by
  decide

/-- C3, amended: on a ledger that already holds a traintuple at the key derived
from (challenge key, algo key, start-model hash, training-data keys, creator),
a `createTraintuple` call with these inputs whose checks pass and whose writes the
ledger accepts returns the key with no error, and the record stored at the key
afterwards is the fresh traintuple: status `todo`, no end model, empty log, no
training performances. -/
theorem createTraintuple_overwrites (stub : Stub) (c a s d : String)
    (_hold : storedTraintuple stub
      (traintupleKey c a s (stringsSplit (removeSpaces d) ',') stub.creator) ≠ none)
    (hbuild : (buildTraintuple stub stub.creator c a s
      (stringsSplit (removeSpaces d) ',')).toOption ≠ none)
    (hrej : stub.rejected = []) :
    (createTraintuple stub [c, a, s, d]).2
      = .returned (some (.bytes
          (traintupleKey c a s (stringsSplit (removeSpaces d) ',') stub.creator))) none ∧
    ∃ t, storedTraintuple (createTraintuple stub [c, a, s, d]).1
          (traintupleKey c a s (stringsSplit (removeSpaces d) ',') stub.creator) = some t ∧
      t.status = "todo" ∧ t.endModel = none ∧ t.log = "" ∧ t.trainData.perf = [] := by
  cases hb : buildTraintuple stub stub.creator c a s (stringsSplit (removeSpaces d) ',') with
  | error e => simp [hb, Except.toOption] at hbuild
  | ok t =>
      have hk := buildTraintuple_ok _ _ _ _ _ _ _ hb
      have hc := createTraintuple_builds stub c a s d t hb
      have hacc := putTraintuple_accepted stub
        (traintupleKey c a s (stringsSplit (removeSpaces d) ',') stub.creator) a t hrej
      have hok := putTraintuple_ok stub _ _ a t _ (Prod.ext rfl hacc)
      rw [hc]
      refine ⟨hacc, t, ?_, hk.1, hk.2.2.1, hk.2.2.2.1, ?_⟩
      · simp only [storedTraintuple, hok.2.1]
      · obtain ⟨_, _, _, _, ht⟩ := hk.2.2.2.2.2.2.2
        rw [ht]

set_option maxRecDepth 1000000 in
/-- The amended C3 at the ledger of the scenario, where the traintuple is already
trained. -/
theorem createTraintuple_overwrites_witness :
    (createTraintuple ledgerTrained [challengeHash, algoHash, algoHash, trainDataHash]).2
      = .returned (some (.bytes
          (traintupleKey challengeHash algoHash algoHash
            (stringsSplit (removeSpaces trainDataHash) ',') ledgerTrained.creator))) none ∧
    ∃ t, storedTraintuple
          (createTraintuple ledgerTrained [challengeHash, algoHash, algoHash, trainDataHash]).1
          (traintupleKey challengeHash algoHash algoHash
            (stringsSplit (removeSpaces trainDataHash) ',') ledgerTrained.creator) = some t ∧
      t.status = "todo" ∧ t.endModel = none ∧ t.log = "" ∧ t.trainData.perf = [] :=
  createTraintuple_overwrites ledgerTrained challengeHash algoHash algoHash trainDataHash
    (by decide) (by decide) (by decide)

/-! ## C4: the key of a traintuple -/

/-- C4: when `createTraintuple` succeeds, the payload, the key of the record
written and the key in the three index entries are the hex-encoded SHA-256 digest
of challenge key, algo key, stored start-model hash, the training-data keys (spaces
removed) joined with a comma, and the creator: a function of these five inputs
alone. -/
theorem createTraintuple_key (stub : Stub) (args : List String) (p : Payload)
    (h : (createTraintuple stub args).2 = .returned (some p) none) :
    ∃ challengeKey algoKey startModelKey trainData t,
      args = [challengeKey, algoKey, startModelKey, trainData] ∧
      p = .bytes (hexEncodeToString (sha256Sum256 (stringBytes
            (challengeKey ++ algoKey ++ t.startModel.hash ++
              stringsJoin (stringsSplit (removeSpaces trainData) ',') "," ++ stub.creator)))) ∧
      (createTraintuple stub args).1.getState
          (traintupleKey challengeKey algoKey t.startModel.hash
            (stringsSplit (removeSpaces trainData) ',') stub.creator) = some (.traintuple t) ∧
      ("traintuple~algo~key", ["traintuple", algoKey,
          traintupleKey challengeKey algoKey t.startModel.hash
            (stringsSplit (removeSpaces trainData) ',') stub.creator])
        ∈ (createTraintuple stub args).1.index ∧
      ("traintuple~trainWorker~status~key", ["traintuple", t.trainData.worker, "todo",
          traintupleKey challengeKey algoKey t.startModel.hash
            (stringsSplit (removeSpaces trainData) ',') stub.creator])
        ∈ (createTraintuple stub args).1.index ∧
      ("traintuple~testWorker~status~key", ["traintuple", t.testData.worker, "todo",
          traintupleKey challengeKey algoKey t.startModel.hash
            (stringsSplit (removeSpaces trainData) ',') stub.creator])
        ∈ (createTraintuple stub args).1.index ∧
      ∀ (stub2 : Stub) (trainData2 : String) (p2 : Payload),
        stub2.creator = stub.creator →
        stringsSplit (removeSpaces trainData2) ',' = stringsSplit (removeSpaces trainData) ',' →
        (createTraintuple stub2 [challengeKey, algoKey, startModelKey, trainData2]).2
          = .returned (some p2) none →
        p2 = p := by
  obtain ⟨c, a, s, d, t, hargs, hb, hp⟩ := createTraintuple_ok stub args p h
  subst hargs
  have hs := (buildTraintuple_ok _ _ _ _ _ _ _ hb).2.2.2.2.2.2.1
  have hc := createTraintuple_builds stub c a s d t hb
  rw [hc] at h ⊢
  have hok := putTraintuple_ok stub _ _ a t _ (Prod.ext rfl h)
  refine ⟨c, a, s, d, t, rfl, ?_, ?_, ?_, ?_, ?_, ?_⟩
  · rw [hp, hs]
    rfl
  · rw [hs]
    exact hok.2.1
  · rw [hs]
    exact hok.2.2.1
  · rw [hs]
    exact hok.2.2.2.1
  · rw [hs]
    exact hok.2.2.2.2
  · intro stub2 d2 p2 hcr hsp h2
    obtain ⟨c', a', s', d', t', hargs', -, hp'⟩ := createTraintuple_ok stub2 _ p2 h2
    simp only [List.cons.injEq, and_true] at hargs'
    obtain ⟨h1, h2', h3, h4⟩ := hargs'
    subst h1 h2' h3 h4
    rw [hp', hp, hcr, hsp]

set_option maxRecDepth 1000000 in
/-- C4 at the traintuple creation of the scenario. -/
theorem createTraintuple_key_witness :
    (createTraintuple ledgerAlgo traintupleArgs).2 = .returned (some (.bytes tupleKey)) none ∧
    ∃ challengeKey algoKey startModelKey trainData t,
      traintupleArgs = [challengeKey, algoKey, startModelKey, trainData] ∧
      Payload.bytes tupleKey = .bytes (hexEncodeToString (sha256Sum256 (stringBytes
            (challengeKey ++ algoKey ++ t.startModel.hash ++
              stringsJoin (stringsSplit (removeSpaces trainData) ',') "," ++ ledgerAlgo.creator)))) ∧
      (createTraintuple ledgerAlgo traintupleArgs).1.getState
          (traintupleKey challengeKey algoKey t.startModel.hash
            (stringsSplit (removeSpaces trainData) ',') ledgerAlgo.creator) = some (.traintuple t) ∧
      ("traintuple~algo~key", ["traintuple", algoKey,
          traintupleKey challengeKey algoKey t.startModel.hash
            (stringsSplit (removeSpaces trainData) ',') ledgerAlgo.creator])
        ∈ (createTraintuple ledgerAlgo traintupleArgs).1.index ∧
      ("traintuple~trainWorker~status~key", ["traintuple", t.trainData.worker, "todo",
          traintupleKey challengeKey algoKey t.startModel.hash
            (stringsSplit (removeSpaces trainData) ',') ledgerAlgo.creator])
        ∈ (createTraintuple ledgerAlgo traintupleArgs).1.index ∧
      ("traintuple~testWorker~status~key", ["traintuple", t.testData.worker, "todo",
          traintupleKey challengeKey algoKey t.startModel.hash
            (stringsSplit (removeSpaces trainData) ',') ledgerAlgo.creator])
        ∈ (createTraintuple ledgerAlgo traintupleArgs).1.index ∧
      ∀ (stub2 : Stub) (trainData2 : String) (p2 : Payload),
        stub2.creator = ledgerAlgo.creator →
        stringsSplit (removeSpaces trainData2) ',' = stringsSplit (removeSpaces trainData) ',' →
        (createTraintuple stub2 [challengeKey, algoKey, startModelKey, trainData2]).2
          = .returned (some p2) none →
        p2 = .bytes tupleKey :=
  ⟨by decide, createTraintuple_key ledgerAlgo traintupleArgs (.bytes tupleKey) (by decide)⟩

/-! ## C5: `registerAlgo` when `algo.Set` fails -/

set_option maxRecDepth 1000000 in
/-- C5, evaluated on the code.  An algo is registered again under a hash that is
already taken: `algo.Set` returns `AlreadyExists`, yet `registerAlgo` returns the key
with no error, the record at the key is replaced by the draft and an
`algo~challenge~key` entry is created.  With the malformed hash `aaa`, `algo.Set`
returns `InvalidIdentifier`, and `registerAlgo` again reports success after
putting the draft and creating the index entry. -/
theorem registerAlgo_drops_set_error :
    (Algo.Set ledgerAlgo ⟨"other", algoHash, "https://elsewhere", challengeHash⟩).2.2
      = some .alreadyExists ∧
    (registerAlgo ledgerAlgo ["other", algoHash, "https://elsewhere", challengeHash]).2
      = .returned (some (.bytes algoHash)) none ∧
    storedAlgo ledgerAlgo algoHash
      = some ⟨"owner", "algo", "https://algo", challengeHash⟩ ∧
    storedAlgo
        (registerAlgo ledgerAlgo ["other", algoHash, "https://elsewhere", challengeHash]).1
        algoHash
      = some {} ∧
    ("algo~challenge~key", ["algo", "", algoHash])
      ∈ (registerAlgo ledgerAlgo ["other", algoHash, "https://elsewhere", challengeHash]).1.index ∧
    ("algo~challenge~key", ["algo", "", algoHash]) ∉ ledgerAlgo.index ∧
    (Algo.Set ledgerData ⟨"algo", "aaa", "https://algo", challengeHash⟩).2.2
      = some .invalidIdentifier ∧
    (registerAlgo ledgerData ["algo", "aaa", "https://algo", challengeHash]).2.err = none ∧
    (registerAlgo ledgerData ["algo", "aaa", "https://algo", challengeHash]).1.state.length
      = ledgerData.state.length + 1 ∧
    (registerAlgo ledgerData ["algo", "aaa", "https://algo", challengeHash]).1.index.length
      = ledgerData.index.length + 1 := by
  decide

/-! ## C6: payload and error together -/

set_option maxRecDepth 1000000 in
/-- C6, evaluated on the code.  When the ledger refuses the write of the index entry
that attaches the challenge to its dataset, `registerChallenge` returns the error
of `addChallengeDataset` together with the dataset key as payload (line 43): a
non-nil payload with a non-nil error. -/
theorem registerChallenge_payload_with_error :
    (registerChallenge ledgerRefusing challengeArgs).2
      = .returned (some (.bytes datasetHash)) (some .ledgerWriteFailure) := by
  decide

/-! ## C7: the payload of `registerData` -/

set_option maxRecDepth 1000000 in
/-- C7, evaluated on the code.  A successful registration of two hashes returns each
hash followed by a comma and a space, which is not the string
`{"keys": ["h1", "h2"]}` the test expects. -/
theorem registerData_payload_is_not_keys_object :
    (registerData ledgerDataset [trainDataHash ++ ", " ++ testDataHash, datasetHash, "false"]).2
      = .returned (some (.bytes (trainDataHash ++ ", " ++ testDataHash ++ ", "))) none ∧
    (registerData ledgerDataset [trainDataHash ++ ", " ++ testDataHash, datasetHash, "false"]).2
      ≠ .returned (some (.bytes (expectedKeysPayload [trainDataHash, testDataHash]))) none := by
  decide

/-! ## C8: the payload of `queryDatasetData` -/

set_option maxRecDepth 1000000 in
/-- C8, evaluated on the code.  On the ledger where the dataset has one sample
registered with test-only = false and one registered with test-only = true,
`queryDatasetData` succeeds and its payload has the two entries `dataset` and
`trainDataKeys` only: it holds the dataset key and the train sample, and the
test-only sample appears nowhere in it. -/
theorem queryDatasetData_has_no_test_keys :
    storedData ledgerData testDataHash = some ⟨datasetHash, true⟩ ∧
    storedData ledgerData trainDataHash = some ⟨datasetHash, false⟩ ∧
    (queryDatasetData ledgerData [datasetHash]).2.err = none ∧
    payloadFields (queryDatasetData ledgerData [datasetHash]).2 = ["dataset", "trainDataKeys"] ∧
    payloadKeys (queryDatasetData ledgerData [datasetHash]).2 = [datasetHash, trainDataHash] ∧
    testDataHash ∉ payloadKeys (queryDatasetData ledgerData [datasetHash]).2 := by
  decide

/-! ## C9: the key of a dataset -/

/-- C9: when `registerDataset` succeeds, the payload is the opener hash supplied in
the input, the dataset record is stored under that hash, and the
`dataset~owner~key` entry and one `dataset~challenge~key` entry per associated
challenge are in the index with that hash as key. -/
theorem registerDataset_key (stub : Stub) (args : List String) (p : Payload)
    (h : (registerDataset stub args).2 = .returned (some p) none) :
    ∃ inp d, stringToInputDataset args = some inp ∧ p = .bytes inp.openerHash ∧
      (registerDataset stub args).1.getState inp.openerHash = some (.dataset d) ∧
      ("dataset~owner~key", ["dataset", d.owner, inp.openerHash])
        ∈ (registerDataset stub args).1.index ∧
      ∀ c ∈ d.challengeKeys,
        ("dataset~challenge~key", ["dataset", c, inp.openerHash])
          ∈ (registerDataset stub args).1.index := by
  unfold registerDataset at h ⊢
  split at h
  · cases h
  · rename_i inp hinp
    split at h
    · cases h
    · rename_i d key cks hset
      have hs := Dataset.Set_ok _ _ _ _ _ hset
      split at h
      · cases h
      · rename_i s1 h1
        split at h
        · cases h
        · rename_i s2 h2
          split at h
          · cases h
          · rename_i s3 h3
            have a1 := getState_putState _ _ _ _ h1
            have a2 := registerDatasetChallenges_ok _ _ _ _ h2
            have a3 := createCompositeKey_ok _ _ _ _ h3
            obtain ⟨hk, -, -, hc, -⟩ := hs
            subst hk
            simp only [Outcome.returned.injEq, Option.some.injEq, and_true] at h
            refine ⟨inp, d, hinp, h.symm, ?_, ?_, ?_⟩
            · simp only [Stub.getState] at a1 ⊢
              rw [a3.1, a2.1]
              exact a1.1
            · simp only [a3.2.1]
              exact List.mem_insert_iff.mpr (Or.inl rfl)
            · intro c hc'
              simp only [a3.2.1]
              refine List.mem_insert_iff.mpr (Or.inr (a2.2.2 c ?_))
              rw [← hc]
              exact hc'

set_option maxRecDepth 1000000 in
/-- C9 at the dataset registration of the scenario. -/
theorem registerDataset_key_witness :
    (registerDataset ledgerEmpty datasetArgs).2 = .returned (some (.bytes datasetHash)) none ∧
    ∃ inp d, stringToInputDataset datasetArgs = some inp ∧
      Payload.bytes datasetHash = .bytes inp.openerHash ∧
      (registerDataset ledgerEmpty datasetArgs).1.getState inp.openerHash = some (.dataset d) ∧
      ("dataset~owner~key", ["dataset", d.owner, inp.openerHash])
        ∈ (registerDataset ledgerEmpty datasetArgs).1.index ∧
      ∀ c ∈ d.challengeKeys,
        ("dataset~challenge~key", ["dataset", c, inp.openerHash])
          ∈ (registerDataset ledgerEmpty datasetArgs).1.index :=
  ⟨by decide, registerDataset_key ledgerEmpty datasetArgs (.bytes datasetHash) (by decide)⟩

/-! ## C10: registering a dataset twice -/

/-- C10: on a ledger that holds a dataset record at the opener hash H (a well-formed
hash), `registerDataset` with opener hash H fails with `AlreadyExists` and returns
the ledger as it was: no write is issued, so the record stored at H is the one
stored before. -/
theorem registerDataset_conflict (stub : Stub) (args : List String) (inp : InputDataset)
    (hargs : stringToInputDataset args = some inp) (hhash : isHash inp.openerHash = true)
    (hold : storedDataset stub inp.openerHash ≠ none) :
    registerDataset stub args = (stub, .returned none (some .alreadyExists)) := by
  have hsome : (stub.getState inp.openerHash).isSome = true := by
    unfold storedDataset at hold
    split at hold
    · rename_i d hd
      simp [hd]
    · simp at hold
  simp [registerDataset, hargs, Dataset.Set, hhash, hsome]

set_option maxRecDepth 1000000 in
/-- C10 at the second registration of the dataset of the scenario. -/
theorem registerDataset_conflict_witness :
    isHash datasetHash = true ∧ storedDataset ledgerDataset datasetHash ≠ none ∧
    registerDataset ledgerDataset datasetArgs
      = (ledgerDataset, .returned none (some .alreadyExists)) :=
  ⟨by decide, by decide,
    registerDataset_conflict ledgerDataset datasetArgs
      ⟨"mnist", datasetHash, "https://opener", "images", "", "", "", "all"⟩ rfl
      (by decide) (by decide)⟩

/-! ## C11: the end-model hash in `logSuccessTrain` -/

set_option maxRecDepth 1000000 in
/-- C11 as stated fails: the end-model hash of 64 letters `z` is not a string of 64
hexadecimal characters, yet `logSuccessTrain` with it succeeds on the traintuple in
training: the record is put with status `trained` and the `traintuple~endModel~key`
entry of that hash is created.  The check of line 303 is on the length alone. -/
theorem logSuccessTrain_accepts_non_hex_hash :
    malformedHash.length = 64 ∧ isHash malformedHash = false ∧
    (logSuccessTrain ledgerTraining
      [tupleKey, malformedHash ++ ", https://model", trainDataHash ++ ":0.9", "trained"]).2.err
      = none ∧
    storedStatus (logSuccessTrain ledgerTraining
      [tupleKey, malformedHash ++ ", https://model", trainDataHash ++ ":0.9", "trained"]).1
      tupleKey = some "trained" ∧
    ("traintuple~endModel~key", ["traintuple", malformedHash, tupleKey]) ∈
      (logSuccessTrain ledgerTraining
      [tupleKey, malformedHash ++ ", https://model", trainDataHash ++ ":0.9", "trained"]).1.index ∧
    ("traintuple~endModel~key", ["traintuple", malformedHash, tupleKey])
      ∉ ledgerTraining.index := by
  decide

/-- C11, amended: when the end-model hash, the first comma-separated component of
the second argument with its spaces removed, is not 64 bytes long, `logSuccessTrain`
issues no ledger write, the ledger after the call being the ledger before it (no
record is put, no `traintuple~endModel~key` entry is created, no index entry is
moved), and returns no payload; when the traintuple key holds a traintuple record
or no record, it returns an error. -/
theorem logSuccessTrain_rejects_length (stub : Stub)
    (traintupleKey endModelArg perfArg log : String)
    (h : ((stringsSplit (removeSpaces endModelArg) ',').headD "").utf8ByteSize ≠ 64) :
    (logSuccessTrain stub [traintupleKey, endModelArg, perfArg, log]).1 = stub ∧
    (logSuccessTrain stub [traintupleKey, endModelArg, perfArg, log]).2.payload = none ∧
    (stub.getState traintupleKey = none ∨ storedTraintuple stub traintupleKey ≠ none →
      ∃ e, (logSuccessTrain stub [traintupleKey, endModelArg, perfArg, log]).2
        = .returned none (some e)) := by
  obtain ⟨first, rest, hsplit⟩ := stringsSplit_eq_cons (removeSpaces endModelArg) ','
  rw [hsplit] at h
  simp only [List.headD_cons] at h
  simp only [logSuccessTrain, hsplit]
  cases hg : getTraintuple stub traintupleKey with
  | error e => simp [Outcome.payload]
  | ok o =>
      cases o with
      | none =>
          have hn := getTraintuple_none _ _ hg
          refine ⟨rfl, rfl, ?_⟩
          intro hk
          rcases hk with hk | hk
          · exact absurd hk hn.1
          · exact absurd hn.2 hk
      | some t =>
          simp only
          split
          · simp [Outcome.payload]
          · simp [h, Outcome.payload]

set_option maxRecDepth 1000000 in
/-- The amended C11 on the traintuple in training, with the end-model hash `abc`. -/
theorem logSuccessTrain_rejects_length_witness :
    ((stringsSplit (removeSpaces "abc, https://model") ',').headD "").utf8ByteSize ≠ 64 ∧
    storedTraintuple ledgerTraining tupleKey ≠ none ∧
    (logSuccessTrain ledgerTraining
        [tupleKey, "abc, https://model", trainDataHash ++ ":0.9", "trained"]).1
      = ledgerTraining ∧
    ∃ e, (logSuccessTrain ledgerTraining
        [tupleKey, "abc, https://model", trainDataHash ++ ":0.9", "trained"]).2
      = .returned none (some e) :=
  ⟨by decide, by decide,
    (logSuccessTrain_rejects_length ledgerTraining tupleKey "abc, https://model"
      (trainDataHash ++ ":0.9") "trained" (by decide)).1,
    (logSuccessTrain_rejects_length ledgerTraining tupleKey "abc, https://model"
      (trainDataHash ++ ":0.9") "trained" (by decide)).2.2 (Or.inr (by decide))⟩

/-! ## C12: authorization in `logFailTrainTest` -/

/-- C12: on an existing traintuple and with a valid log, `logFailTrainTest` checks
the transition to `failed` for the training worker when the stored status is `todo`
or `training` and for the testing worker when it is `trained` or `testing`; an
error of that check is the error of the call; for every other stored status the
call returns an error.  In each of these cases the payload is nil and the ledger
is the one before the call. -/
theorem logFailTrainTest_authorization (stub : Stub) (traintupleKey log : String)
    (t : Traintuple) (hlog : checkLog log = none)
    (ht : storedTraintuple stub traintupleKey = some t) :
    (t.status ∈ ["todo", "training"] → ∀ e,
      checkUpdateTraintuple stub t.trainData.worker t.status "failed" = some e →
      logFailTrainTest stub [traintupleKey, log] = (stub, .returned none (some e))) ∧
    (t.status ∈ ["trained", "testing"] → ∀ e,
      checkUpdateTraintuple stub t.testData.worker t.status "failed" = some e →
      logFailTrainTest stub [traintupleKey, log] = (stub, .returned none (some e))) ∧
    (t.status ∉ ["todo", "training", "trained", "testing"] →
      logFailTrainTest stub [traintupleKey, log]
        = (stub, .returned none (some .invalidTransition))) := by
  have hg := getTraintuple_of_stored _ _ _ ht
  refine ⟨?_, ?_, ?_⟩
  · intro hs e he
    have h1 : stringInSlice t.status ["todo", "training"] = true := by
      simpa [stringInSlice] using hs
    simp [logFailTrainTest, hlog, hg, h1, he]
  · intro hs e he
    have h1 : stringInSlice t.status ["todo", "training"] = false := by
      simp only [List.mem_cons, List.mem_singleton, List.not_mem_nil, or_false] at hs
      rcases hs with hs | hs <;> simp [stringInSlice, hs]
    have h2 : stringInSlice t.status ["trained", "testing"] = true := by
      simpa [stringInSlice] using hs
    simp [logFailTrainTest, hlog, hg, h1, h2, he]
  · intro hs
    simp only [List.mem_cons, List.mem_singleton, List.not_mem_nil, or_false, not_or] at hs
    have h1 : stringInSlice t.status ["todo", "training"] = false := by
      simp [stringInSlice, hs.1, hs.2.1]
    have h2 : stringInSlice t.status ["trained", "testing"] = false := by
      simp [stringInSlice, hs.2.2.1, hs.2.2.2]
    simp [logFailTrainTest, hlog, hg, h1, h2]

set_option maxRecDepth 1000000 in
/-- C12 on the traintuple in training, when the caller is not its training
worker. -/
theorem logFailTrainTest_authorization_witness :
    checkLog "out of memory" = none ∧
    storedStatus ledgerIntruder tupleKey = some "training" ∧
    logFailTrainTest ledgerIntruder [tupleKey, "out of memory"]
      = (ledgerIntruder, .returned none (some .unauthorized)) :=
  ⟨by decide, by decide,
    (logFailTrainTest_authorization ledgerIntruder tupleKey "out of memory"
      ((storedTraintuple ledgerIntruder tupleKey).getD {}) (by decide) (by decide)).1
      (by decide) .unauthorized (by decide)⟩

/-! ## C13: the log after `logSuccessTest` -/

set_option maxRecDepth 1000000 in
/-- C13, evaluated on the code.  The traintuple is in status `testing` with the
stored log `trained`, and the testing worker calls `logSuccessTest` with the overall
performance `Inf` and the log ` tested`.  `strconv.ParseFloat` accepts `Inf`,
`json.Marshal` fails on it and its error is dropped (line 435): the call returns
a nil error with a nil payload, nil is put under the key, and the stored log is not
`trained tested`: no record is left.  With the performance `0.5` the same call
returns the record and the stored log is `trained tested`. -/
theorem logSuccessTest_loses_log :
    storedStatus ledgerTesting tupleKey = some "testing" ∧
    storedLog ledgerTesting tupleKey = some "trained" ∧
    parseFloat "Inf" = some .notFinite ∧
    (logSuccessTest ledgerTesting [tupleKey, testDataHash ++ ":0.5", "Inf", " tested"]).2
      = .returned none none ∧
    (logSuccessTest ledgerTesting [tupleKey, testDataHash ++ ":0.5", "Inf", " tested"]).1.getState
      tupleKey = none ∧
    storedLog (logSuccessTest ledgerTesting
      [tupleKey, testDataHash ++ ":0.5", "Inf", " tested"]).1 tupleKey
      ≠ some ("trained" ++ " tested") ∧
    (logSuccessTest ledgerTesting [tupleKey, testDataHash ++ ":0.5", "0.5", " tested"]).2.err
      = none ∧
    payloadStatus (logSuccessTest ledgerTesting
      [tupleKey, testDataHash ++ ":0.5", "0.5", " tested"]).2 = some "done" ∧
    storedLog (logSuccessTest ledgerTesting
      [tupleKey, testDataHash ++ ":0.5", "0.5", " tested"]).1 tupleKey
      = some ("trained" ++ " tested") := by
  decide

/-! ## C14: what `registerData` writes -/

/-- C14: after a successful `registerData` for the dataset key D, the hashes and the
test-only flag b that `dataset.Update` returned, every hash holds a data record
with dataset key D and flag b, and the indexes `data~dataset~key` and
`data~dataset~testOnly~key` hold its entries (data, D, hash) and
(data, D, b, hash); every index entry after the call was there before or is one of
these, so that no entry (data, D, not b, hash) and no entry under another dataset
key is added. -/
theorem registerData_writes (stub : Stub) (args : List String) (inp : InputData)
    (dataset : Dataset) (datasetKey : String) (dataHashes : List String) (testOnly : Bool)
    (p : Option Payload)
    (hargs : stringToInputData args = some inp)
    (hupdate : (Dataset.Update stub inp).toOption = some (dataset, datasetKey, dataHashes, testOnly))
    (h : (registerData stub args).2 = .returned p none) :
    (∀ dataHash ∈ dataHashes,
      storedData (registerData stub args).1 dataHash = some ⟨datasetKey, testOnly⟩ ∧
      ("data~dataset~key", ["data", datasetKey, dataHash]) ∈ (registerData stub args).1.index ∧
      ("data~dataset~testOnly~key", ["data", datasetKey, formatBool testOnly, dataHash])
        ∈ (registerData stub args).1.index) ∧
    (∀ e ∈ (registerData stub args).1.index, e ∈ stub.index ∨ ∃ dataHash ∈ dataHashes,
      e = ("data~dataset~key", ["data", datasetKey, dataHash]) ∨
      e = ("data~dataset~testOnly~key", ["data", datasetKey, formatBool testOnly, dataHash])) ∧
    (∀ dataHash,
      ("data~dataset~testOnly~key", ["data", datasetKey, formatBool (!testOnly), dataHash])
        ∈ (registerData stub args).1.index →
      ("data~dataset~testOnly~key", ["data", datasetKey, formatBool (!testOnly), dataHash])
        ∈ stub.index) := by
  have hu : Dataset.Update stub inp = .ok (dataset, datasetKey, dataHashes, testOnly) := by
    cases hx : Dataset.Update stub inp with
    | error e => simp [hx, Except.toOption] at hupdate
    | ok v =>
        simp only [hx, Except.toOption, Option.some.injEq] at hupdate
        rw [hupdate]
  simp only [registerData, hargs, hu] at h ⊢
  split at h
  · cases h
  · rename_i s1 h1
    have a1 := getState_putState _ _ _ _ h1
    obtain ⟨b1, b2⟩ := registerDataLoop_ok _ _ _ _ _ _ _ (Prod.ext rfl h)
    have hidx : ∀ e ∈ (registerDataLoop datasetKey testOnly s1 "" dataHashes).1.index,
        e ∈ stub.index ∨ ∃ dataHash ∈ dataHashes,
          e = ("data~dataset~key", ["data", datasetKey, dataHash]) ∨
          e = ("data~dataset~testOnly~key",
            ["data", datasetKey, formatBool testOnly, dataHash]) := by
      intro e he
      have := (b2 e).mp he
      rwa [a1.2.1] at this
    refine ⟨?_, hidx, ?_⟩
    · intro dataHash hd
      refine ⟨?_, ?_, ?_⟩
      · simp [storedData, b1 dataHash, hd]
      · exact (b2 _).mpr (Or.inr ⟨dataHash, hd, Or.inl rfl⟩)
      · exact (b2 _).mpr (Or.inr ⟨dataHash, hd, Or.inr rfl⟩)
    · intro dataHash he
      rcases hidx _ he with hin | ⟨h', -, heq | heq⟩
      · exact hin
      · simp at heq
      · exfalso
        simp only [Prod.mk.injEq, List.cons.injEq, true_and, and_true] at heq
        cases testOnly <;> simp [formatBool] at heq

set_option maxRecDepth 1000000 in
/-- C14 at the registration of two test-only samples on the ledger that holds the
dataset. -/
theorem registerData_writes_witness :
    (registerData ledgerDataset [trainDataHash ++ ", " ++ testDataHash, datasetHash, "true"]).2.err
      = none ∧
    storedData (registerData ledgerDataset
      [trainDataHash ++ ", " ++ testDataHash, datasetHash, "true"]).1 testDataHash
      = some ⟨datasetHash, true⟩ :=
  ⟨by decide,
    ((registerData_writes ledgerDataset
      [trainDataHash ++ ", " ++ testDataHash, datasetHash, "true"]
      ⟨trainDataHash ++ ", " ++ testDataHash, datasetHash, "true"⟩
      ((storedDataset ledgerDataset datasetHash).getD {}) datasetHash
      [trainDataHash, testDataHash] true
      (some (.bytes (trainDataHash ++ ", " ++ testDataHash ++ ", ")))
      rfl (by decide) (by decide)).1 testDataHash (by decide)).1⟩

/-! ## C15: the traintuple `createTraintuple` stores -/

/-- C15: when `createTraintuple` succeeds, the traintuple stored under the returned
key has status `todo` and the transaction creator as creator; every supplied
training-data key is a data sample of one dataset, and the training worker is the
owner of that dataset, the training opener hash its key, the training keys the
supplied comma-separated keys in their order; and the indexes
`traintuple~trainWorker~status~key` and `traintuple~testWorker~status~key` each
hold the entry of the worker with status `todo` for the new key. -/
theorem createTraintuple_record (stub : Stub) (args : List String) (p : Payload)
    (h : (createTraintuple stub args).2 = .returned (some p) none) :
    ∃ challengeKey algoKey startModelKey trainData key t datasetKey dataset,
      args = [challengeKey, algoKey, startModelKey, trainData] ∧ p = .bytes key ∧
      storedTraintuple (createTraintuple stub args).1 key = some t ∧
      t.status = "todo" ∧ t.creator = stub.creator ∧
      (∀ k ∈ stringsSplit (removeSpaces trainData) ',',
        (storedData stub k).map (fun d => d.datasetKey) = some datasetKey) ∧
      storedDataset stub datasetKey = some dataset ∧
      t.trainData.worker = dataset.owner ∧ t.trainData.openerHash = datasetKey ∧
      t.trainData.keys = stringsSplit (removeSpaces trainData) ',' ∧
      ("traintuple~trainWorker~status~key", ["traintuple", t.trainData.worker, "todo", key])
        ∈ (createTraintuple stub args).1.index ∧
      ("traintuple~testWorker~status~key", ["traintuple", t.testData.worker, "todo", key])
        ∈ (createTraintuple stub args).1.index := by
  obtain ⟨c, a, s, d, t, hargs, hb, hp⟩ := createTraintuple_ok stub args p h
  subst hargs
  obtain ⟨h1, h2, -, -, -, -, -, datasetKey, dataset, hk, hd, ht⟩ :=
    buildTraintuple_ok _ _ _ _ _ _ _ hb
  have hc := createTraintuple_builds stub c a s d t hb
  rw [hc] at h ⊢
  have hok := putTraintuple_ok stub _ _ a t _ (Prod.ext rfl h)
  refine ⟨c, a, s, d, _, t, datasetKey, dataset, rfl, hp, ?_, h1, h2,
    checkSameDataset_ok _ _ _ hk, storedDataset_of_getDataset _ _ _ hd, ?_, ?_, ?_,
    hok.2.2.2.1, hok.2.2.2.2⟩
  · simp only [storedTraintuple, hok.2.1]
  · rw [ht]
  · rw [ht]
  · rw [ht]

set_option maxRecDepth 1000000 in
/-- C15 at the traintuple creation of the scenario. -/
theorem createTraintuple_record_witness :
    (createTraintuple ledgerAlgo traintupleArgs).2 = .returned (some (.bytes tupleKey)) none ∧
    ∃ challengeKey algoKey startModelKey trainData key t datasetKey dataset,
      traintupleArgs = [challengeKey, algoKey, startModelKey, trainData] ∧
      Payload.bytes tupleKey = .bytes key ∧
      storedTraintuple (createTraintuple ledgerAlgo traintupleArgs).1 key = some t ∧
      t.status = "todo" ∧ t.creator = ledgerAlgo.creator ∧
      (∀ k ∈ stringsSplit (removeSpaces trainData) ',',
        (storedData ledgerAlgo k).map (fun d => d.datasetKey) = some datasetKey) ∧
      storedDataset ledgerAlgo datasetKey = some dataset ∧
      t.trainData.worker = dataset.owner ∧ t.trainData.openerHash = datasetKey ∧
      t.trainData.keys = stringsSplit (removeSpaces trainData) ',' ∧
      ("traintuple~trainWorker~status~key", ["traintuple", t.trainData.worker, "todo", key])
        ∈ (createTraintuple ledgerAlgo traintupleArgs).1.index ∧
      ("traintuple~testWorker~status~key", ["traintuple", t.testData.worker, "todo", key])
        ∈ (createTraintuple ledgerAlgo traintupleArgs).1.index :=
  ⟨by decide, createTraintuple_record ledgerAlgo traintupleArgs (.bytes tupleKey) (by decide)⟩

/-! ## C16: the string hashed into the traintuple key -/

set_option maxRecDepth 1000000 in
/-- C16 as stated fails: the concatenation has no separator between its components.
The tuples (`ab`, `c`, ...) and (`a`, `bc`, ...) differ and give the same string;
so do, with well-formed hashes, the tuple with one training-data key and the
creator `,` followed by 64 hexadecimal characters and the tuple with two
training-data keys and the empty creator: these two requests share their
traintuple key without any SHA-256 collision. -/
theorem traintupleKeyBytes_not_injective :
    ("ab", "c", "m", ["k"], "u") ≠ ("a", "bc", "m", ["k"], "u") ∧
    traintupleKeyBytes "ab" "c" "m" ["k"] "u" = traintupleKeyBytes "a" "bc" "m" ["k"] "u" ∧
    (challengeHash, algoHash, algoHash, [trainDataHash], "," ++ testDataHash)
      ≠ (challengeHash, algoHash, algoHash, [trainDataHash, testDataHash], "") ∧
    traintupleKeyBytes challengeHash algoHash algoHash [trainDataHash] ("," ++ testDataHash)
      = traintupleKeyBytes challengeHash algoHash algoHash [trainDataHash, testDataHash] "" ∧
    traintupleKey challengeHash algoHash algoHash [trainDataHash] ("," ++ testDataHash)
      = traintupleKey challengeHash algoHash algoHash [trainDataHash, testDataHash] "" := by
  decide

/-- C16, amended: when the challenge key, the algo key, the start-model hash and
every training-data key are 64 characters long, as hashes are, the lists of
training-data keys are not empty, as the result of a split is, and the creators
contain no comma, two input tuples that differ in at least one component give
different concatenated strings. -/
theorem traintupleKeyBytes_injective (c a s : String) (keys : List String) (u : String)
    (c' a' s' : String) (keys' : List String) (u' : String)
    (hc : c.length = 64 ∧ c'.length = 64) (ha : a.length = 64 ∧ a'.length = 64)
    (hs : s.length = 64 ∧ s'.length = 64)
    (hk : keys ≠ [] ∧ ∀ k ∈ keys, k.length = 64) (hk' : keys' ≠ [] ∧ ∀ k ∈ keys', k.length = 64)
    (hu : ',' ∉ u.toList ∧ ',' ∉ u'.toList)
    (hne : (c, a, s, keys, u) ≠ (c', a', s', keys', u')) :
    traintupleKeyBytes c a s keys u ≠ traintupleKeyBytes c' a' s' keys' u' := by
  intro h
  apply hne
  obtain ⟨k, ks, rfl⟩ := List.exists_cons_of_ne_nil hk.1
  obtain ⟨k', ks', rfl⟩ := List.exists_cons_of_ne_nil hk'.1
  have hd := congrArg String.data h
  simp only [traintupleKeyBytes, String.data_append, stringsJoin_cons_data,
    List.append_assoc] at hd
  simp only [String.length] at hc ha hs
  obtain ⟨e1, hd⟩ := List.append_inj hd (by rw [hc.1, hc.2])
  obtain ⟨e2, hd⟩ := List.append_inj hd (by rw [ha.1, ha.2])
  obtain ⟨e3, hd⟩ := List.append_inj hd (by rw [hs.1, hs.2])
  have hl : k.data.length = k'.data.length := by
    have h1 := hk.2 k (List.mem_cons_self _ _)
    have h2 := hk'.2 k' (List.mem_cons_self _ _)
    simp only [String.length] at h1 h2
    rw [h1, h2]
  obtain ⟨e4, hd⟩ := List.append_inj hd hl
  obtain ⟨e5, e6⟩ := joined_tail_inj ks ks' u.data u'.data
    (fun x hx => hk.2 x (List.mem_cons_of_mem _ hx))
    (fun x hx => hk'.2 x (List.mem_cons_of_mem _ hx)) hu.1 hu.2 hd
  rw [String.ext e1, String.ext e2, String.ext e3, String.ext e4, e5, String.ext e6]

set_option maxRecDepth 1000000 in
/-- The amended C16 for two requests of the scenario's creator that differ in the
training-data key. -/
theorem traintupleKeyBytes_injective_witness :
    traintupleKeyBytes challengeHash algoHash algoHash [trainDataHash] "owner"
      ≠ traintupleKeyBytes challengeHash algoHash algoHash [testDataHash] "owner" :=
  traintupleKeyBytes_injective challengeHash algoHash algoHash [trainDataHash] "owner"
    challengeHash algoHash algoHash [testDataHash] "owner"
    (by decide) (by decide) (by decide) (by decide) (by decide) (by decide) (by decide)

/-! ## C17: `endModel[1]` in `logSuccessTrain` -/

set_option maxRecDepth 1000000 in
/-- C17, evaluated on the code.  The traintuple is in training, the caller is its
training worker, the performances and the log are valid, and the end-model
argument is a hash of 64 characters with no comma after it: the split has one
component, and `logSuccessTrain` aborts on reading `endModel[1]` (line 321), with no
write.  With the storage address after a comma the same call succeeds. -/
theorem logSuccessTrain_aborts_without_address :
    storedStatus ledgerTraining tupleKey = some "training" ∧
    (stringsSplit (removeSpaces endModelHash) ',').length = 1 ∧
    ((stringsSplit (removeSpaces endModelHash) ',').headD "").utf8ByteSize = 64 ∧
    (strToPerf (trainDataHash ++ ":0.9") [trainDataHash]).toOption.isSome = true ∧
    checkLog "trained" = none ∧
    logSuccessTrain ledgerTraining [tupleKey, endModelHash, trainDataHash ++ ":0.9", "trained"]
      = (ledgerTraining, .aborted) ∧
    (logSuccessTrain ledgerTraining
      [tupleKey, endModelHash ++ ", https://model", trainDataHash ++ ":0.9", "trained"]).2.err
      = none := by
  decide

end Chaincode
